import Mathlib

/-! Deprovisioning strategies and machine garbage collection.

A shallow embedding of

* `pkg/controllers/deprovisioning/drift.go` (`Drift.ShouldDeprovision`, `Drift.ComputeCommand`),
* `pkg/controllers/deprovisioning/expiration.go` (`Expiration.ShouldDeprovision`,
  `Expiration.filterAndSortCandidates`, `Expiration.ComputeCommand`, `getExpirationTime`),
* `pkg/controllers/machine/garbagecollect.go` (`GarbageCollect.Reconcile`),

followed by the properties established about them.

Conventions of the embedding:

* a Go `error` is an `Option GoError` (`none` is the nil error);
* a Go nil-able pointer is an `Option`;
* a Go run-time panic is the `panicked` constructor of `Outcome`;
* collaborators that live outside these three files (the candidate filter, the scheduling
  simulation, the node lookup, the cloud provider, the API client, the clock) are arguments;
* `int64` arithmetic that can overflow is written with an explicit wrap-around.
-/

namespace Karpenter

/-! ## Time -/

/-- An instant of Go's `time.Time`, as a count of nanoseconds since 1970-01-01T00:00:00Z.
Only the wall-clock instant matters to `Before` and `After`; the instants handled here are
RFC 3339 timestamps and the far-future sentinel, all far from the ends of the representable
range, so no bound is imposed. -/
abbrev Time := Int

/-- Go's `time.Duration`: an `int64` count of nanoseconds. -/
abbrev Duration := Int

/-- Go's `time.Second`. -/
def Second : Duration := 1000000000

/-- The value an `int64` computation yields for the exact result `x` (two's complement). -/
def wrapInt64 (x : Int) : Int := (x + 2 ^ 63) % 2 ^ 64 - 2 ^ 63

/-- Largest `time.Duration`. -/
def maxDuration : Duration := 2 ^ 63 - 1

/-- Smallest `time.Duration`. -/
def minDuration : Duration := -(2 ^ 63)

/-- Go's `Time.Before`. -/
def Time.Before (t u : Time) : Bool := decide (t < u)

/-- Go's `Time.After`. -/
def Time.After (t u : Time) : Bool := decide (u < t)

/-- Go's `Time.Add` on instants: the instant `d` nanoseconds after `t`. -/
def Time.Add (t : Time) (d : Duration) : Time := t + d

/-- Go's `Time.Sub`: the difference as a `Duration`, saturating at the ends of `int64`. -/
def Time.Sub (t u : Time) : Duration :=
  if t - u > maxDuration then maxDuration
  else if t - u < minDuration then minDuration
  else t - u

/-- Go's `time.Until(t)` read against the clock value `now`. -/
def Until (now t : Time) : Duration := Time.Sub t now

/-- Go's `norm` helper of package `time`: carries `lo` into `hi` so that `0 ≤ lo < base`. -/
def norm (hi lo base : Int) : Int × Int :=
  let p : Int × Int :=
    if lo < 0 then
      let n := (-lo - 1) / base + 1
      (hi - n, lo + n * base)
    else (hi, lo)
  if p.2 ≥ base then
    let n := p.2 / base
    (p.1 + n, p.2 - n * base)
  else p

/-- Go's `isLeap`. -/
def isLeap (year : Int) : Bool :=
  year % 4 == 0 && (year % 100 != 0 || year % 400 == 0)

/-- Go's `daysBefore` table: days in a non-leap year before the given month (0-based). -/
def daysBefore : List Int := [0, 31, 59, 90, 120, 151, 181, 212, 243, 273, 304, 334, 365]

/-- Days from 0001-01-01 to January 1 of `year` in the proleptic Gregorian calendar
(what Go's `daysSinceEpoch` counts, taken from year 1 instead of the absolute zero year). -/
def daysSinceYearOne (year : Int) : Int :=
  let y := year - 1
  365 * y + y / 4 - y / 100 + y / 400

/-- Days from 0001-01-01 to 1970-01-01. -/
def unixEpochDays : Int := 719162

/-- Go's `time.Date(year, month, day, hour, min, sec, nsec, time.UTC)`: out-of-range fields
are normalised (month 0 is December of the previous year, day 0 is the last day of the
previous month). -/
def Date (year month day hour min sec nsec : Int) : Time :=
  let ym := norm year (month - 1) 12
  let year := ym.1
  let month := ym.2 + 1
  let sn := norm sec nsec 1000000000
  let ms := norm min sn.1 60
  let hm := norm hour ms.1 60
  let dh := norm day hm.1 24
  let d := daysSinceYearOne year + daysBefore.getD (month - 1).toNat 0
  let d := if isLeap year && decide (month ≥ 3) then d + 1 else d
  let d := d + (dh.1 - 1)
  let unix := (d - unixEpochDays) * 86400 + (dh.2 * 3600 + hm.2 * 60 + ms.2)
  unix * 1000000000 + sn.2

/-! ## Errors -/

/-- The error values that reach the code under study. `wrapped msg cause` is
`fmt.Errorf(msg + "%w", cause)`. -/
inductive GoError where
  /-- The sentinel `errCandidateDeleting` of the simulation helper. -/
  | candidateDeleting
  /-- A `machineutil.NodeNotFoundError`. -/
  | nodeNotFound
  /-- A `cloudprovider.MachineNotFoundError`. -/
  | machineNotFound
  /-- An API-server "not found" status error. -/
  | apiNotFound
  /-- Go's `context.Canceled`. -/
  | contextCanceled
  /-- Any other leaf error. -/
  | other (msg : String)
  /-- An error wrapping another one with `%w`. -/
  | wrapped (msg : String) (cause : GoError)
deriving DecidableEq, Repr

/-- Whether `p` holds somewhere along the `Unwrap` chain of `e` (the traversal done by
`errors.Is` and `errors.As`). -/
def GoError.chainAny (p : GoError → Bool) : GoError → Bool
  | .wrapped msg cause => p (.wrapped msg cause) || GoError.chainAny p cause
  | e => p e

/-- The sentinel `errCandidateDeleting`. -/
def errCandidateDeleting : GoError := .candidateDeleting

/-- Go's `errors.Is(err, target)` for a non-nil `err`. -/
def errorsIs (err target : GoError) : Bool := err.chainAny (fun e => decide (e = target))

/-- Go's `errors.Is(err, errCandidateDeleting)` on a possibly nil `err`. -/
def isCandidateDeleting : Option GoError → Bool
  | none => false
  | some e => errorsIs e errCandidateDeleting

/-! ## Candidates and commands -/

/-- The fields of `v1.Node` that the strategies read. -/
structure Node where
  Name : String
  CreationTimestamp : Time
  Annotations : List (String × String)
deriving DecidableEq, Repr

/-- The fields of `v1alpha5.Provisioner` that the strategies read;
`TTLSecondsUntilExpired` is a `*int64`. -/
structure Provisioner where
  TTLSecondsUntilExpired : Option Int
deriving DecidableEq, Repr

/-- A deprovisioning candidate: its node and its provisioner pointer. The provisioner may be
nil, the case `getExpirationTime` tests for; the node is read without any test throughout
and is taken to be present. -/
structure Candidate where
  Node : Node
  provisioner : Option Provisioner
deriving DecidableEq, Repr

/-- A replacement machine proposed by the scheduling simulation (`*scheduling.Machine`);
the strategies only count and forward them. -/
structure scheduling.Machine where
  id : Nat
deriving DecidableEq, Repr

/-- The action tag of a `Command` (the Go type `action`). -/
inductive Action where
  | actionDelete
  | actionReplace
  | actionDoNothing
deriving DecidableEq, Repr

/-- The decision of a strategy. -/
structure Command where
  candidates : List Candidate
  action : Action
  replacements : List scheduling.Machine
deriving DecidableEq, Repr

/-- The composite literal `Command{}`. The declaration of the action type is outside the
three files, so the tag its zero value denotes is the argument `zero`. -/
def Command.empty (zero : Action) : Command :=
  { candidates := [], action := zero, replacements := [] }

/-- What a call does: it returns a value or it panics. -/
inductive Outcome (α : Type) where
  | returned (a : α)
  | panicked (msg : String)
deriving DecidableEq, Repr

/-- Result triple of `simulateScheduling`: the new machines, whether all pods scheduled,
and the error. -/
abbrev SimResult := List scheduling.Machine × Bool × Option GoError

/-- Result pair of `filterCandidates`: the surviving candidates and the error. -/
abbrev FilterResult := List Candidate × Option GoError

/-- Go's indexing `m[k]` of a `map[string]string`: the zero value `""` when `k` is absent. -/
def mapIndex (m : List (String × String)) (k : String) : String :=
  (m.lookup k).getD ""

/-- Accessor `c.Annotations()`. -/
def Candidate.Annotations (c : Candidate) : List (String × String) := c.Node.Annotations

/-! ## drift.go -/

/-- `Drift.ShouldDeprovision`. The arguments are the `DriftEnabled` field of
`settings.FromContext(ctx)` and the two `v1alpha5` constants, declared outside the three
files. -/
def Drift.ShouldDeprovision (DriftEnabled : Bool)
    (VoluntaryDisruptionAnnotationKey VoluntaryDisruptionDriftedAnnotationValue : String)
    (c : Candidate) : Bool :=
  if !DriftEnabled then false
  else decide (mapIndex c.Annotations VoluntaryDisruptionAnnotationKey
    = VoluntaryDisruptionDriftedAnnotationValue)

/-- The `for _, candidate := range candidates` loop of `Drift.ComputeCommand`. -/
def Drift.computeLoop (zero : Action) (simulateScheduling : Candidate → SimResult) :
    List Candidate → Command × Option GoError
  | [] => ({ candidates := [], action := .actionDoNothing, replacements := [] }, none)
  | candidate :: rest =>
    match simulateScheduling candidate with
    | (_, _, some err) =>
      if errorsIs err errCandidateDeleting then
        Drift.computeLoop zero simulateScheduling rest
      else (Command.empty zero, some err)
    | (newMachines, _, none) =>
      if newMachines.length = 0 then
        ({ candidates := [candidate], action := .actionDelete, replacements := [] }, none)
      else
        ({ candidates := [candidate], action := .actionReplace, replacements := newMachines },
          none)

/-- `Drift.ComputeCommand`. -/
def Drift.ComputeCommand (zero : Action) (filterCandidates : List Candidate → FilterResult)
    (simulateScheduling : Candidate → SimResult) (nodes : List Candidate) :
    Command × Option GoError :=
  match filterCandidates nodes with
  | (_, some err) => (Command.empty zero, some (.wrapped "filtering candidates, " err))
  | (candidates, none) => Drift.computeLoop zero simulateScheduling candidates

/-! ## expiration.go -/

/-- `getExpirationTime`. The product `time.Duration(ttl) * time.Second` is an `int64`
product. -/
def getExpirationTime (node : Node) (provisioner : Option Provisioner) : Time :=
  match provisioner with
  | none => Date 5000 0 0 0 0 0 0
  | some p =>
    match p.TTLSecondsUntilExpired with
    | none => Date 5000 0 0 0 0 0 0
    | some ttl =>
      let expirationTTL : Duration := wrapInt64 (ttl * Second)
      Time.Add node.CreationTimestamp expirationTTL

/-- `Expiration.ShouldDeprovision`; `now` is `e.clock.Now()`. -/
def Expiration.ShouldDeprovision (now : Time) (c : Candidate) : Bool :=
  Time.After now (getExpirationTime c.Node c.provisioner)

/-- One insertion step of the sort: `x` goes in front of the first element it is less
than. -/
def insertByLess {α : Type} (less : α → α → Bool) (x : α) : List α → List α
  | [] => [x]
  | y :: ys => if less x y then x :: y :: ys else y :: insertByLess less x ys

/-- Go's `sort.Slice(s, less)`, modelled by insertion sort from left to right, the algorithm
the Go library runs on slices of at most twelve elements. `sort.Slice` is not stable and
leaves the order of elements that compare equal open; whenever no two elements compare
equal this is the list it returns. -/
def sortSlice {α : Type} (less : α → α → Bool) (s : List α) : List α :=
  s.foldl (fun acc x => insertByLess less x acc) []

/-- The `less` closure handed to `sort.Slice` by `filterAndSortCandidates`. -/
def expirationLess (a b : Candidate) : Bool :=
  Time.Before (getExpirationTime a.Node a.provisioner) (getExpirationTime b.Node b.provisioner)

/-- `Expiration.filterAndSortCandidates`. -/
def Expiration.filterAndSortCandidates (filterCandidates : List Candidate → FilterResult)
    (nodes : List Candidate) : FilterResult :=
  match filterCandidates nodes with
  | (_, some err) => ([], some (.wrapped "filtering candidates, " err))
  | (candidates, none) => (sortSlice expirationLess candidates, none)

/-- The `for _, candidate := range candidates` loop of `Expiration.ComputeCommand`;
`candidates` is the whole slice, which the log statement indexes at 0. The arguments of
the log statement are evaluated before the command is returned: reading
`candidates[0].provisioner.Spec` dereferences the provisioner pointer. -/
def Expiration.computeLoop (zero : Action) (simulateScheduling : Candidate → SimResult)
    (candidates : List Candidate) : List Candidate → Outcome (Command × Option GoError)
  | [] => .returned ({ candidates := [], action := .actionDoNothing, replacements := [] }, none)
  | candidate :: rest =>
    match simulateScheduling candidate with
    | (_, _, some err) =>
      if errorsIs err errCandidateDeleting then
        Expiration.computeLoop zero simulateScheduling candidates rest
      else .returned (Command.empty zero, some err)
    | (newMachines, _, none) =>
      match candidates with
      | [] => .panicked "index out of range"
      | first :: _ =>
        match first.provisioner with
        | none => .panicked "invalid memory address or nil pointer dereference"
        | some _ =>
          .returned
            ({ candidates := [candidate], action := .actionReplace,
               replacements := newMachines }, none)

/-- `Expiration.ComputeCommand`. -/
def Expiration.ComputeCommand (zero : Action)
    (filterCandidates : List Candidate → FilterResult)
    (simulateScheduling : Candidate → SimResult) (nodes : List Candidate) :
    Outcome (Command × Option GoError) :=
  match Expiration.filterAndSortCandidates filterCandidates nodes with
  | (_, some err) =>
    .returned (Command.empty zero, some (.wrapped "filtering candidates, " err))
  | (candidates, none) =>
    Expiration.computeLoop zero simulateScheduling candidates candidates

/-! ## garbagecollect.go -/

/-- The fields of `v1alpha5.Machine` that `Reconcile` reads. `MachineCreated` is the value of
`machine.StatusConditions().GetCondition(v1alpha5.MachineCreated).IsTrue()`. -/
structure v1alpha5.Machine where
  Namespace : String
  Name : String
  ProviderID : String
  MachineCreated : Bool
deriving DecidableEq, Repr

/-- The cache key `client.ObjectKeyFromObject(machine).String()`. -/
def ObjectKey (machine : v1alpha5.Machine) : String :=
  machine.Namespace ++ "/" ++ machine.Name

/-- Modelled from the spec: `machineutil.IsNodeNotFoundError`, declared outside the three
files; true exactly on errors that are, or wrap, the node-not-found error, false on nil. -/
def IsNodeNotFoundError : Option GoError → Bool
  | none => false
  | some e => e.chainAny (fun x => decide (x = GoError.nodeNotFound))

/-- Modelled from the spec: `cloudprovider.IsMachineNotFoundError`, declared outside the
three files; true exactly on errors that are, or wrap, the machine-not-found error, false on
nil. -/
def IsMachineNotFoundError : Option GoError → Bool
  | none => false
  | some e => e.chainAny (fun x => decide (x = GoError.machineNotFound))

/-- The apimachinery helper `apierrors.IsNotFound` on a non-nil error. -/
def IsNotFound (e : GoError) : Bool := e.chainAny (fun x => decide (x = GoError.apiNotFound))

/-- The controller-runtime helper `client.IgnoreNotFound`: nil for an API "not found" error,
the error itself otherwise. -/
def IgnoreNotFound : Option GoError → Option GoError
  | none => none
  | some e => if IsNotFound e then none else some e

/-- The presence cache `lastChecked` (a go-cache): for each key the stored expiration in
nanoseconds since the Unix epoch, where a value that is not positive means the item never
expires. -/
abbrev Cache := String → Option Int

/-- The zero `time.Time`, 0001-01-01T00:00:00Z. -/
def zeroTime : Time := Date 1 1 1 0 0 0 0

/-- The go-cache lookup `GetWithExpiration` at clock value `now`: `some expireTime` when the
third result is true, `none` when the key is absent or its item has expired. -/
def Cache.GetWithExpiration (c : Cache) (now : Time) (k : String) : Option Time :=
  match c k with
  | none => none
  | some expiration =>
    if expiration > 0 then
      if now > expiration then none else some expiration
    else some zeroTime

/-- The go-cache store `SetDefault(k, nil)` at clock value `now`, with the default expiration
the cache was built with. -/
def Cache.SetDefault (c : Cache) (now : Time) (defaultExpiration : Duration) (k : String) :
    Cache :=
  let e : Int := if defaultExpiration > 0 then now + defaultExpiration else 0
  fun key => if key = k then some e else c key

/-- The calls `Reconcile` makes on its collaborators that matter to the outside. -/
inductive Effect where
  /-- Call of `g.cloudProvider.Get(ctx, providerID)`. -/
  | providerGet (providerID : String)
  /-- Call of `g.kubeClient.Delete(ctx, machine)`. -/
  | kubeDelete (key : String)
  /-- Call of `g.lastChecked.SetDefault(key, nil)`. -/
  | cacheSetDefault (key : String)
deriving DecidableEq, Repr

/-- What the collaborators answer during one call of `Reconcile`: the clock, the error of
`machineutil.NodeForMachine`, the error of `cloudProvider.Get` for a provider id, and the
error of `kubeClient.Delete`. -/
structure Collaborators where
  now : Time
  NodeForMachine : v1alpha5.Machine → Option GoError
  cloudProviderGet : String → Option GoError
  kubeDelete : v1alpha5.Machine → Option GoError

/-- Go's `reconcile.Result`. -/
structure reconcile.Result where
  RequeueAfter : Duration
deriving DecidableEq, Repr

/-- Everything one call of `Reconcile` produces: the two return values, the cache afterwards
and the calls made, in order. -/
structure ReconcileOutput where
  result : reconcile.Result
  err : Option GoError
  lastChecked : Cache
  effects : List Effect

/-- `GarbageCollect.Reconcile`; `defaultExpiration` is the default expiration of the
`lastChecked` cache and `lastChecked` its content before the call. -/
def GarbageCollect.Reconcile (defaultExpiration : Duration) (w : Collaborators)
    (lastChecked : Cache) (machine : v1alpha5.Machine) : ReconcileOutput :=
  if !machine.MachineCreated then
    { result := { RequeueAfter := 0 }, err := none, lastChecked := lastChecked, effects := [] }
  else
    let err := w.NodeForMachine machine
    if err.isNone || !IsNodeNotFoundError err then
      { result := { RequeueAfter := 0 }, err := none, lastChecked := lastChecked,
        effects := [] }
    else
      match lastChecked.GetWithExpiration w.now (ObjectKey machine) with
      | some expireTime =>
        { result := { RequeueAfter := Until w.now expireTime }, err := none,
          lastChecked := lastChecked, effects := [] }
      | none =>
        let err := w.cloudProviderGet machine.ProviderID
        if IsMachineNotFoundError err then
          match w.kubeDelete machine with
          | some err =>
            { result := { RequeueAfter := 0 }, err := IgnoreNotFound (some err),
              lastChecked := lastChecked,
              effects := [.providerGet machine.ProviderID, .kubeDelete (ObjectKey machine)] }
          | none =>
            { result := { RequeueAfter := 0 }, err := none, lastChecked := lastChecked,
              effects := [.providerGet machine.ProviderID, .kubeDelete (ObjectKey machine)] }
        else
          { result := { RequeueAfter := 0 }, err := none,
            lastChecked := lastChecked.SetDefault w.now defaultExpiration (ObjectKey machine),
            effects := [.providerGet machine.ProviderID,
              .cacheSetDefault (ObjectKey machine)] }

/-- Successive calls of `Reconcile` on the same record, one per element of `calls`, each
starting from the cache the previous one left: the final cache and all calls made. -/
def GarbageCollect.ReconcileSeq (defaultExpiration : Duration) (machine : v1alpha5.Machine) :
    Cache → List Collaborators → Cache × List Effect
  | lastChecked, [] => (lastChecked, [])
  | lastChecked, w :: calls =>
    let out := GarbageCollect.Reconcile defaultExpiration w lastChecked machine
    let tail := GarbageCollect.ReconcileSeq defaultExpiration machine out.lastChecked calls
    (tail.1, out.effects ++ tail.2)

/-- Whether an effect is a provider query. -/
def Effect.isProviderGet : Effect → Bool
  | .providerGet _ => true
  | _ => false

/-- Whether an effect is a deletion of the record. -/
def Effect.isKubeDelete : Effect → Bool
  | .kubeDelete _ => true
  | _ => false

/-- Whether an effect is a cache insertion. -/
def Effect.isCacheSetDefault : Effect → Bool
  | .cacheSetDefault _ => true
  | _ => false

/-- Whether the candidate has a provisioner with `TTLSecondsUntilExpired` set. -/
def Candidate.hasTTL (c : Candidate) : Bool :=
  match c.provisioner with
  | none => false
  | some p => p.TTLSecondsUntilExpired.isSome

/-- The expiration time `getExpirationTime(c.Node, c.provisioner)` of a candidate. -/
def Candidate.expirationTime (c : Candidate) : Time :=
  getExpirationTime c.Node c.provisioner

/-! ## Sample inputs -/

/-- A node without annotations. -/
def sampleNode (name : String) (created : Time) : Node :=
  { Name := name, CreationTimestamp := created, Annotations := [] }

/-- A candidate whose provisioner pointer is nil. -/
def candidateNoProvisioner : Candidate :=
  { Node := sampleNode "node-n" (Date 2023 1 1 0 0 0 0), provisioner := none }

/-- A candidate created on 2023-01-01 with a TTL of one hour. -/
def candidateA : Candidate :=
  { Node := sampleNode "node-a" (Date 2023 1 1 0 0 0 0),
    provisioner := some { TTLSecondsUntilExpired := some 3600 } }

/-- A candidate created on 2023-01-01 with a TTL of two hours. -/
def candidateB : Candidate :=
  { Node := sampleNode "node-b" (Date 2023 1 1 0 0 0 0),
    provisioner := some { TTLSecondsUntilExpired := some 7200 } }

/-- A candidate created on 2023-01-01 with a TTL of three hours. -/
def candidateC : Candidate :=
  { Node := sampleNode "node-c" (Date 2023 1 1 0 0 0 0),
    provisioner := some { TTLSecondsUntilExpired := some 10800 } }

/-- A candidate with a TTL of zero seconds whose node carries the creation timestamp
5001-01-01T00:00:00Z. -/
def candidateFarFuture : Candidate :=
  { Node := sampleNode "node-f" (Date 5001 1 1 0 0 0 0),
    provisioner := some { TTLSecondsUntilExpired := some 0 } }

/-- A candidate filter that lets every candidate through. -/
def filterKeepsAll : List Candidate → FilterResult := fun nodes => (nodes, none)

/-- A simulation that succeeds for every candidate and asks for no replacement. -/
def simulateNoReplacement : Candidate → SimResult := fun _ => ([], true, none)

/-- A simulation that succeeds for every candidate and asks for one replacement. -/
def simulateOneReplacement : Candidate → SimResult := fun _ => ([{ id := 1 }], true, none)

/-- A simulation that reports `errCandidateDeleting` for `candidateA`, a cancelled context
for `candidateB` and success for every other candidate. -/
def simulateDeletingThenCanceled : Candidate → SimResult := fun c =>
  if c = candidateA then ([], false, some errCandidateDeleting)
  else if c = candidateB then ([], false, some .contextCanceled)
  else ([{ id := 1 }], true, none)

/-- A drifted candidate, under the key `"karpenter.sh/voluntary-disruption"` and the value
`"drifted"`. -/
def candidateDrifted : Candidate :=
  { Node := { Name := "node-d", CreationTimestamp := Date 2023 1 1 0 0 0 0,
              Annotations := [("karpenter.sh/voluntary-disruption", "drifted")] },
    provisioner := none }


/-- A created machine record. -/
def sampleMachine : v1alpha5.Machine :=
  { Namespace := "", Name := "machine-1", ProviderID := "provider://i-1",
    MachineCreated := true }

/-- A presence cache without entries. -/
def emptyCache : Cache := fun _ => none

/-- Collaborators that answer every call of one `Reconcile` with the given errors. -/
def collaborators (now : Time) (nodeErr getErr deleteErr : Option GoError) : Collaborators :=
  { now := now, NodeForMachine := fun _ => nodeErr, cloudProviderGet := fun _ => getErr,
    kubeDelete := fun _ => deleteErr }

/-- Ten minutes, as a default expiration of the presence cache. -/
def tenMinutes : Duration := 600 * Second

/-- The clock value 2023-01-01T00:00:00Z. -/
def sampleNow : Time := Date 2023 1 1 0 0 0 0

/-- Collaborators for a record without node that the provider reports as not found and
whose deletion fails with an error other than "not found". -/
def collaboratorsDeleteFails : Collaborators :=
  collaborators sampleNow (some .nodeNotFound) (some .machineNotFound)
    (some (.other "etcdserver: request timed out"))

/-- Collaborators for a record without node that the provider finds, at the given clock
value. -/
def collaboratorsFound (now : Time) : Collaborators :=
  collaborators now (some .nodeNotFound) none none

/-- A simulation that reports `errCandidateDeleting` for every candidate. -/
def simulateAllDeleting : Candidate → SimResult := fun _ =>
  ([], false, some errCandidateDeleting)

/-- A simulation that reports `errCandidateDeleting` for `candidateA` and succeeds for every
other candidate, asking for two replacements and leaving some pods unscheduled. -/
def simulateDeletingThenTwo : Candidate → SimResult := fun c =>
  if c = candidateA then ([], false, some errCandidateDeleting)
  else ([{ id := 1 }, { id := 2 }], false, none)

/-- A simulation that reports `errCandidateDeleting` for `candidateA` and succeeds for every
other candidate, asking for no replacement. -/
def simulateDeletingThenNone : Candidate → SimResult := fun c =>
  if c = candidateA then ([], false, some errCandidateDeleting)
  else ([], true, none)

/-- The simulation `simulateOneReplacement` with the "all pods scheduled" flag off. -/
def simulateOneReplacementUnplaced : Candidate → SimResult := fun _ =>
  ([{ id := 1 }], false, none)

/-- A candidate created on 2023-01-01 whose provisioner sets a TTL of ten billion seconds,
about 317 years. -/
def candidateHugeTTL : Candidate :=
  { Node := sampleNode "node-h" (Date 2023 1 1 0 0 0 0),
    provisioner := some { TTLSecondsUntilExpired := some 10000000000 } }

/-- A simulation that reports `errCandidateDeleting` for `candidateNoProvisioner` and
succeeds for every other candidate, asking for one replacement. -/
def simulateNoProvisionerDeleting : Candidate → SimResult := fun c =>
  if c = candidateNoProvisioner then ([], false, some errCandidateDeleting)
  else ([{ id := 1 }], true, none)

/-- A candidate filter that fails. -/
def filterFails : List Candidate → FilterResult := fun _ =>
  ([], some (.other "listing pods failed"))

/-- A presence cache holding one entry, for key `k` with stored expiration `e`. -/
def cacheWithEntry (k : String) (e : Int) : Cache := fun key =>
  if key = k then some e else none

/-- A simulation that reports `errCandidateDeleting` for `candidateA`, succeeds for
`candidateB` asking for two replacements, and meets a cancelled context for every other
candidate. -/
def simulateDeletingThenTwoThenCanceled : Candidate → SimResult := fun c =>
  if c = candidateA then ([], false, some errCandidateDeleting)
  else if c = candidateB then ([{ id := 1 }, { id := 2 }], false, none)
  else ([], false, some .contextCanceled)

/-! ## Lemmas on the command loops -/

/-- A non-nil error is reported as `errCandidateDeleting` exactly when `errors.Is` says so. -/
theorem isCandidateDeleting_some (e : GoError) :
    isCandidateDeleting (some e) = errorsIs e errCandidateDeleting := rfl

/-- The Drift loop passes over a prefix of candidates that are all reported deleting. -/
theorem Drift_computeLoop_skip (zero : Action) (sim : Candidate → SimResult)
    (pre rest : List Candidate)
    (hpre : ∀ x ∈ pre, isCandidateDeleting (sim x).2.2 = true) :
    Drift.computeLoop zero sim (pre ++ rest) = Drift.computeLoop zero sim rest := by
  induction pre with
  | nil => rfl
  | cons a pre ih =>
    have ha := hpre a (List.mem_cons_self _ _)
    have ih2 := ih (fun x hx => hpre x (List.mem_cons_of_mem _ hx))
    rcases h : sim a with ⟨ms, b, err⟩
    rw [h] at ha
    cases err with
    | none => simp [isCandidateDeleting] at ha
    | some e =>
      rw [isCandidateDeleting_some] at ha
      simp only [List.cons_append, Drift.computeLoop, h, ha, if_true]
      exact ih2

/-- The Expiration loop passes over a prefix of candidates that are all reported deleting. -/
theorem Expiration_computeLoop_skip (zero : Action) (sim : Candidate → SimResult)
    (all pre rest : List Candidate)
    (hpre : ∀ x ∈ pre, isCandidateDeleting (sim x).2.2 = true) :
    Expiration.computeLoop zero sim all (pre ++ rest)
      = Expiration.computeLoop zero sim all rest := by
  induction pre with
  | nil => rfl
  | cons a pre ih =>
    have ha := hpre a (List.mem_cons_self _ _)
    have ih2 := ih (fun x hx => hpre x (List.mem_cons_of_mem _ hx))
    rcases h : sim a with ⟨ms, b, err⟩
    rw [h] at ha
    cases err with
    | none => simp [isCandidateDeleting] at ha
    | some e =>
      rw [isCandidateDeleting_some] at ha
      simp only [List.cons_append, Expiration.computeLoop, h, ha, if_true]
      exact ih2

/-- The Drift loop stops with the error at the first candidate whose simulation fails with
an error other than `errCandidateDeleting`. -/
theorem Drift_computeLoop_hard_error (zero : Action) (sim : Candidate → SimResult)
    (pre post : List Candidate) (c : Candidate) (e : GoError)
    (hpre : ∀ x ∈ pre, isCandidateDeleting (sim x).2.2 = true)
    (hc : (sim c).2.2 = some e) (he : errorsIs e errCandidateDeleting = false) :
    Drift.computeLoop zero sim (pre ++ c :: post) = (Command.empty zero, some e) := by
  rw [Drift_computeLoop_skip zero sim pre (c :: post) hpre]
  rcases h : sim c with ⟨ms, b, err⟩
  rw [h] at hc
  simp only at hc
  subst hc
  simp [Drift.computeLoop, h, he]

/-- The Expiration loop stops with the error at the first candidate whose simulation fails
with an error other than `errCandidateDeleting`. -/
theorem Expiration_computeLoop_hard_error (zero : Action) (sim : Candidate → SimResult)
    (all pre post : List Candidate) (c : Candidate) (e : GoError)
    (hpre : ∀ x ∈ pre, isCandidateDeleting (sim x).2.2 = true)
    (hc : (sim c).2.2 = some e) (he : errorsIs e errCandidateDeleting = false) :
    Expiration.computeLoop zero sim all (pre ++ c :: post)
      = .returned (Command.empty zero, some e) := by
  rw [Expiration_computeLoop_skip zero sim all pre (c :: post) hpre]
  rcases h : sim c with ⟨ms, b, err⟩
  rw [h] at hc
  simp only at hc
  subst hc
  simp [Expiration.computeLoop, h, he]

/-- The Drift loop answers with the first candidate whose simulation succeeds after a prefix
of candidates reported deleting: a delete command when no replacement is needed, a replace
command carrying the replacements otherwise. -/
theorem Drift_computeLoop_first_feasible (zero : Action) (sim : Candidate → SimResult)
    (pre post : List Candidate) (c : Candidate)
    (hpre : ∀ x ∈ pre, isCandidateDeleting (sim x).2.2 = true)
    (hc : (sim c).2.2 = none) :
    Drift.computeLoop zero sim (pre ++ c :: post)
      = (if (sim c).1.length = 0 then
          ({ candidates := [c], action := .actionDelete, replacements := [] }, none)
        else
          ({ candidates := [c], action := .actionReplace, replacements := (sim c).1 }, none)) := by
  rw [Drift_computeLoop_skip zero sim pre (c :: post) hpre]
  rcases h : sim c with ⟨ms, b, err⟩
  rw [h] at hc
  simp only at hc
  subst hc
  simp [Drift.computeLoop, h]

/-- The Expiration loop answers with the first candidate whose simulation succeeds after a
prefix of candidates reported deleting, provided the first element of the whole slice has a
provisioner. -/
theorem Expiration_computeLoop_first_feasible (zero : Action) (sim : Candidate → SimResult)
    (first : Candidate) (tail pre post : List Candidate) (c : Candidate) (p : Provisioner)
    (hfirst : first.provisioner = some p)
    (hpre : ∀ x ∈ pre, isCandidateDeleting (sim x).2.2 = true)
    (hc : (sim c).2.2 = none) :
    Expiration.computeLoop zero sim (first :: tail) (pre ++ c :: post)
      = .returned
          ({ candidates := [c], action := .actionReplace, replacements := (sim c).1 }, none) := by
  rw [Expiration_computeLoop_skip zero sim (first :: tail) pre (c :: post) hpre]
  rcases h : sim c with ⟨ms, b, err⟩
  rw [h] at hc
  simp only at hc
  subst hc
  simp [Expiration.computeLoop, h, hfirst]

/-- Every command the Drift loop returns obeys the command invariant. -/
theorem Drift_computeLoop_invariant (zero : Action) (sim : Candidate → SimResult)
    (l : List Candidate) (cmd : Command)
    (h : Drift.computeLoop zero sim l = (cmd, none)) :
    (cmd.action = .actionReplace → 1 ≤ cmd.replacements.length)
    ∧ (cmd.action = .actionDelete → cmd.replacements = [])
    ∧ (cmd.action = .actionDoNothing → cmd.candidates = []) := by
  induction l with
  | nil =>
    simp only [Drift.computeLoop, Prod.mk.injEq, and_true] at h
    subst h
    simp
  | cons a l ih =>
    rcases hs : sim a with ⟨ms, b, err⟩
    cases err with
    | some e =>
      by_cases hd : errorsIs e errCandidateDeleting = true
      · simp only [Drift.computeLoop, hs, hd, if_true] at h
        exact ih h
      · simp [Drift.computeLoop, hs, hd] at h
    | none =>
      by_cases hlen : ms.length = 0
      · simp only [Drift.computeLoop, hs, hlen, if_true, Prod.mk.injEq, and_true] at h
        subst h
        simp
      · simp only [Drift.computeLoop, hs, hlen, if_false, Prod.mk.injEq, and_true] at h
        subst h
        simp only [reduceCtorEq, false_implies, and_true, true_implies]
        omega

/-! ## Lemmas on the sort -/

/-- Inserting an element adds exactly that element. -/
theorem insertByLess_perm {α : Type} (less : α → α → Bool) (x : α) (l : List α) :
    (insertByLess less x l).Perm (x :: l) := by
  induction l with
  | nil => exact List.Perm.refl _
  | cons y ys ih =>
    by_cases h : less x y = true
    · simp [insertByLess, h]
    · simp only [insertByLess, h, if_false, Bool.false_eq_true]
      exact (List.Perm.cons y ih).trans (List.Perm.swap x y ys)

/-- Folding insertions over `s` from `acc` rearranges `acc ++ s`. -/
theorem foldl_insertByLess_perm {α : Type} (less : α → α → Bool) (s acc : List α) :
    (s.foldl (fun acc x => insertByLess less x acc) acc).Perm (acc ++ s) := by
  induction s generalizing acc with
  | nil => simp
  | cons x s ih =>
    simp only [List.foldl_cons]
    refine (ih (insertByLess less x acc)).trans ?_
    refine (List.Perm.append_right s (insertByLess_perm less x acc)).trans ?_
    simpa using (@List.perm_middle _ x acc s).symm

/-- The sort rearranges its input. -/
theorem sortSlice_perm {α : Type} (less : α → α → Bool) (s : List α) :
    (sortSlice less s).Perm s := by
  simpa [sortSlice] using foldl_insertByLess_perm less s []

/-- Inserting into a list ordered by a key, with `less` the strict order of the keys, keeps
it ordered. -/
theorem insertByLess_pairwise {α : Type} (less : α → α → Bool) (key : α → Int)
    (hless : ∀ a b, less a b = decide (key a < key b)) (x : α) (l : List α)
    (h : l.Pairwise (fun a b => key a ≤ key b)) :
    (insertByLess less x l).Pairwise (fun a b => key a ≤ key b) := by
  induction l with
  | nil => simp [insertByLess]
  | cons y ys ih =>
    rw [List.pairwise_cons] at h
    by_cases hxy : key x < key y
    · have hl : less x y = true := by rw [hless]; exact decide_eq_true hxy
      simp only [insertByLess, hl, if_true]
      refine List.Pairwise.cons ?_ (List.Pairwise.cons h.1 h.2)
      intro z hz
      rcases List.mem_cons.mp hz with rfl | hz
      · exact le_of_lt hxy
      · exact le_trans (le_of_lt hxy) (h.1 z hz)
    · have hl : less x y = false := by rw [hless]; exact decide_eq_false hxy
      simp only [insertByLess, hl, if_false, Bool.false_eq_true]
      refine List.Pairwise.cons ?_ (ih h.2)
      intro z hz
      rcases List.mem_cons.mp ((insertByLess_perm less x ys).subset hz) with rfl | hz
      · exact not_lt.mp hxy
      · exact h.1 z hz

/-- Folding insertions from an ordered list gives an ordered list. -/
theorem foldl_insertByLess_pairwise {α : Type} (less : α → α → Bool) (key : α → Int)
    (hless : ∀ a b, less a b = decide (key a < key b)) (s acc : List α)
    (h : acc.Pairwise (fun a b => key a ≤ key b)) :
    (s.foldl (fun acc x => insertByLess less x acc) acc).Pairwise
      (fun a b => key a ≤ key b) := by
  induction s generalizing acc with
  | nil => simpa using h
  | cons x s ih =>
    simp only [List.foldl_cons]
    exact ih _ (insertByLess_pairwise less key hless x acc h)

/-- The sort orders its input by the key when `less` is the strict order of the keys. -/
theorem sortSlice_pairwise {α : Type} (less : α → α → Bool) (key : α → Int)
    (hless : ∀ a b, less a b = decide (key a < key b)) (s : List α) :
    (sortSlice less s).Pairwise (fun a b => key a ≤ key b) :=
  foldl_insertByLess_pairwise less key hless s [] List.Pairwise.nil

/-- The candidates returned by `filterAndSortCandidates` are in ascending order of expiration
time. -/
theorem Expiration_filterAndSortCandidates_pairwise
    (filter : List Candidate → FilterResult) (nodes sorted : List Candidate)
    (h : Expiration.filterAndSortCandidates filter nodes = (sorted, none)) :
    sorted.Pairwise (fun a b =>
      getExpirationTime a.Node a.provisioner ≤ getExpirationTime b.Node b.provisioner) := by
  unfold Expiration.filterAndSortCandidates at h
  rcases hf : filter nodes with ⟨cs, err⟩
  rw [hf] at h
  cases err with
  | some e => simp at h
  | none =>
    simp only [Prod.mk.injEq, and_true] at h
    subst h
    exact sortSlice_pairwise expirationLess
      (fun c => getExpirationTime c.Node c.provisioner) (fun _ _ => rfl) cs

/-- The sentinel `time.Date(5000, 0, 0, 0, 0, 0, 0, time.UTC)` is 4999-11-30T00:00:00Z. -/
theorem sentinel_eq : Date 5000 0 0 0 0 0 0 = Date 4999 11 30 0 0 0 0 := by decide

/-- The expiration time of a candidate without provisioner or without TTL is the sentinel. -/
theorem getExpirationTime_no_ttl (c : Candidate)
    (hc : c.provisioner = none
      ∨ ∃ p, c.provisioner = some p ∧ p.TTLSecondsUntilExpired = none) :
    getExpirationTime c.Node c.provisioner = Date 5000 0 0 0 0 0 0 := by
  rcases hc with h | ⟨p, h, hp⟩
  · simp [getExpirationTime, h]
  · simp [getExpirationTime, h, hp]

/-- Positions in a list ordered by a relation: an earlier element is related to a later
one. -/
theorem pairwise_getElem? {α : Type} {R : α → α → Prop} {l : List α} (h : l.Pairwise R)
    (i j : Nat) (a b : α) (hij : i < j) (ha : l[i]? = some a) (hb : l[j]? = some b) :
    R a b := by
  rcases List.getElem?_eq_some_iff.mp ha with ⟨hi, rfl⟩
  rcases List.getElem?_eq_some_iff.mp hb with ⟨hj, rfl⟩
  exact List.pairwise_iff_getElem.mp h i j hi hj hij

/-- A candidate without TTL expires at the sentinel. -/
theorem Candidate_expirationTime_of_not_hasTTL (c : Candidate) (h : c.hasTTL = false) :
    c.expirationTime = Date 5000 0 0 0 0 0 0 := by
  unfold Candidate.expirationTime
  apply getExpirationTime_no_ttl
  unfold Candidate.hasTTL at h
  cases hp : c.provisioner with
  | none => exact Or.inl rfl
  | some p =>
    rw [hp] at h
    refine Or.inr ⟨p, rfl, ?_⟩
    cases ht : p.TTLSecondsUntilExpired with
    | none => rfl
    | some t => simp [ht] at h

/-! ## The claims on drift.go and expiration.go -/

/-- A candidate that `Expiration.ShouldDeprovision` accepts at a clock value not after the
sentinel has a provisioner. -/
theorem Expiration_ShouldDeprovision_has_provisioner (c : Candidate) (now : Time)
    (hnow : now ≤ Date 5000 0 0 0 0 0 0)
    (h : Expiration.ShouldDeprovision now c = true) :
    ∃ p, c.provisioner = some p := by
  cases hp : c.provisioner with
  | some p => exact ⟨p, rfl⟩
  | none =>
    have hexp := getExpirationTime_no_ttl c (Or.inl hp)
    simp only [Expiration.ShouldDeprovision, hexp, Time.After, decide_eq_true_eq] at h
    exact absurd h (not_lt.mpr hnow)

/-- C1 (first feasible wins): let the evaluation order (the filter output for Drift, the
sorted filter output for Expiration) hold a candidate `B` whose simulation succeeds, behind
candidates that are all reported deleting. `Drift.ComputeCommand` returns a command whose
candidates are exactly `[B]`, with a nil error. So does `Expiration.ComputeCommand` on the
lists it is handed, those of deprovisionable candidates: every candidate satisfies
`Expiration.ShouldDeprovision` at a clock value not after the sentinel. Either result is the
same for every simulation that agrees on the candidates up to `B`, whatever it returns for
the candidates after `B`. -/
theorem C1_first_feasible_wins (zero : Action) (filter : List Candidate → FilterResult)
    (sim sim2 : Candidate → SimResult) (nodes pre post : List Candidate) (B : Candidate)
    (now : Time)
    (hpre : ∀ x ∈ pre, isCandidateDeleting (sim x).2.2 = true)
    (hB : (sim B).2.2 = none)
    (hagree : ∀ x ∈ pre ++ [B], sim2 x = sim x) :
    (filter nodes = (pre ++ B :: post, none) →
      (Drift.ComputeCommand zero filter sim nodes).1.candidates = [B]
      ∧ (Drift.ComputeCommand zero filter sim nodes).2 = none
      ∧ Drift.ComputeCommand zero filter sim2 nodes
          = Drift.ComputeCommand zero filter sim nodes)
    ∧ (Expiration.filterAndSortCandidates filter nodes = (pre ++ B :: post, none) →
      now ≤ Date 5000 0 0 0 0 0 0 →
      (∀ x ∈ pre ++ B :: post, Expiration.ShouldDeprovision now x = true) →
      Expiration.ComputeCommand zero filter sim nodes
          = .returned
              ({ candidates := [B], action := .actionReplace, replacements := (sim B).1 },
                none)
      ∧ Expiration.ComputeCommand zero filter sim2 nodes
          = Expiration.ComputeCommand zero filter sim nodes) := by
  have hpre2 : ∀ x ∈ pre, isCandidateDeleting (sim2 x).2.2 = true := by
    intro x hx
    rw [hagree x (List.mem_append_left _ hx)]
    exact hpre x hx
  have hBeq : sim2 B = sim B :=
    hagree B (List.mem_append_right _ (List.mem_singleton_self B))
  have hB2 : (sim2 B).2.2 = none := by rw [hBeq]; exact hB
  constructor
  · intro hf
    have h1 := Drift_computeLoop_first_feasible zero sim pre post B hpre hB
    have h2 := Drift_computeLoop_first_feasible zero sim2 pre post B hpre2 hB2
    rw [hBeq] at h2
    have hcmd : Drift.ComputeCommand zero filter sim nodes
        = Drift.computeLoop zero sim (pre ++ B :: post) := by
      simp only [Drift.ComputeCommand, hf]
    have hcmd2 : Drift.ComputeCommand zero filter sim2 nodes
        = Drift.computeLoop zero sim2 (pre ++ B :: post) := by
      simp only [Drift.ComputeCommand, hf]
    refine ⟨?_, ?_, ?_⟩
    · rw [hcmd, h1]
      split <;> rfl
    · rw [hcmd, h1]
      split <;> rfl
    · rw [hcmd, hcmd2, h1, h2]
  · intro hf hnow helig
    have hhead : ∃ first tail p, pre ++ B :: post = first :: tail
        ∧ first.provisioner = some p := by
      cases hl : pre ++ B :: post with
      | nil => simp at hl
      | cons first tail =>
        have hmem : first ∈ pre ++ B :: post := by
          rw [hl]
          exact List.mem_cons_self _ _
        rcases Expiration_ShouldDeprovision_has_provisioner first now hnow
          (helig first hmem) with ⟨p, hp⟩
        exact ⟨first, tail, p, rfl, hp⟩
    rcases hhead with ⟨first, tail, p, hl, hp⟩
    have h1 := Expiration_computeLoop_first_feasible zero sim first tail pre post B p hp
      hpre hB
    have h2 := Expiration_computeLoop_first_feasible zero sim2 first tail pre post B p hp
      hpre2 hB2
    rw [hBeq] at h2
    have hcmd : Expiration.ComputeCommand zero filter sim nodes
        = Expiration.computeLoop zero sim (first :: tail) (pre ++ B :: post) := by
      simp only [Expiration.ComputeCommand, hf, hl]
    have hcmd2 : Expiration.ComputeCommand zero filter sim2 nodes
        = Expiration.computeLoop zero sim2 (first :: tail) (pre ++ B :: post) := by
      simp only [Expiration.ComputeCommand, hf, hl]
    exact ⟨by rw [hcmd, h1], by rw [hcmd, hcmd2, h1, h2]⟩

/-- C1 on three expired sample candidates, seen on 2023-01-02: the first in evaluation order
is reported deleting, the second succeeds and is the only candidate of the command, and a
simulation that would fail on the third gives the same result. -/
theorem C1_first_feasible_wins_witness :
    ((Drift.ComputeCommand .actionDelete filterKeepsAll simulateDeletingThenTwo
        [candidateA, candidateB, candidateC]).1.candidates = [candidateB]
      ∧ (Drift.ComputeCommand .actionDelete filterKeepsAll simulateDeletingThenTwo
        [candidateA, candidateB, candidateC]).2 = none
      ∧ Drift.ComputeCommand .actionDelete filterKeepsAll simulateDeletingThenTwoThenCanceled
          [candidateA, candidateB, candidateC]
        = Drift.ComputeCommand .actionDelete filterKeepsAll simulateDeletingThenTwo
          [candidateA, candidateB, candidateC])
    ∧ (Expiration.ComputeCommand .actionDelete filterKeepsAll simulateDeletingThenTwo
        [candidateC, candidateB, candidateA]
        = .returned
            ({ candidates := [candidateB], action := .actionReplace,
               replacements := (simulateDeletingThenTwo candidateB).1 }, none)
      ∧ Expiration.ComputeCommand .actionDelete filterKeepsAll
          simulateDeletingThenTwoThenCanceled [candidateC, candidateB, candidateA]
        = Expiration.ComputeCommand .actionDelete filterKeepsAll simulateDeletingThenTwo
          [candidateC, candidateB, candidateA]) :=
  ⟨(C1_first_feasible_wins .actionDelete filterKeepsAll simulateDeletingThenTwo
      simulateDeletingThenTwoThenCanceled [candidateA, candidateB, candidateC] [candidateA]
      [candidateC] candidateB (Date 2023 1 2 0 0 0 0) (by decide) (by decide)
      (by decide)).1 rfl,
   (C1_first_feasible_wins .actionDelete filterKeepsAll simulateDeletingThenTwo
      simulateDeletingThenTwoThenCanceled [candidateC, candidateB, candidateA] [candidateA]
      [candidateC] candidateB (Date 2023 1 2 0 0 0 0) (by decide) (by decide)
      (by decide)).2 (by decide) (by decide) (by decide)⟩

/-- C2 (command invariant), evaluated where it breaks: one candidate with a provisioner,
kept by the filter, whose simulation succeeds asking for no replacement.
`Drift.ComputeCommand` returns a delete command without replacements;
`Expiration.ComputeCommand` returns, with a nil error, a replace command whose replacement
list is empty. -/
theorem C2_expiration_replace_without_replacement :
    Drift.ComputeCommand .actionDelete filterKeepsAll simulateNoReplacement [candidateA]
      = ({ candidates := [candidateA], action := .actionDelete, replacements := [] }, none)
    ∧ Expiration.ComputeCommand .actionDelete filterKeepsAll simulateNoReplacement [candidateA]
      = .returned
          ({ candidates := [candidateA], action := .actionReplace, replacements := [] },
            none) := by
  decide

/-- C3 (drift predicate): with a non-empty drifted value, `Drift.ShouldDeprovision` is true
exactly when the toggle is on and the annotation under the key is present and equal to the
drifted value; it is false when the toggle is off, when the annotation is absent, and when
the annotation has any other value. -/
theorem C3_drift_predicate (DriftEnabled : Bool) (key value : String) (c : Candidate)
    (hvalue : value ≠ "") :
    (Drift.ShouldDeprovision DriftEnabled key value c = true
      ↔ DriftEnabled = true ∧ c.Annotations.lookup key = some value)
    ∧ (DriftEnabled = false → Drift.ShouldDeprovision DriftEnabled key value c = false)
    ∧ (c.Annotations.lookup key = none
        → Drift.ShouldDeprovision DriftEnabled key value c = false)
    ∧ (∀ v, c.Annotations.lookup key = some v → v ≠ value
        → Drift.ShouldDeprovision DriftEnabled key value c = false) := by
  have hne : ¬ ("" = value) := fun h => hvalue h.symm
  refine ⟨?_, ?_, ?_, ?_⟩
  · cases DriftEnabled <;> cases h : c.Annotations.lookup key <;>
      simp [Drift.ShouldDeprovision, mapIndex, h, hne]
  · intro h
    simp [Drift.ShouldDeprovision, h]
  · intro h
    cases DriftEnabled <;> simp [Drift.ShouldDeprovision, mapIndex, h, hne]
  · intro v h hv
    cases DriftEnabled <;> simp [Drift.ShouldDeprovision, mapIndex, h, hv]

/-- C3 at the drifted sample candidate: true with the toggle on, false with it off. -/
theorem C3_drift_predicate_witness :
    "drifted" ≠ ""
    ∧ Drift.ShouldDeprovision true "karpenter.sh/voluntary-disruption" "drifted"
        candidateDrifted = true
    ∧ Drift.ShouldDeprovision false "karpenter.sh/voluntary-disruption" "drifted"
        candidateDrifted = false :=
  ⟨by decide,
   (C3_drift_predicate true "karpenter.sh/voluntary-disruption" "drifted" candidateDrifted
      (by decide)).1.mpr ⟨rfl, by decide⟩,
   (C3_drift_predicate false "karpenter.sh/voluntary-disruption" "drifted" candidateDrifted
      (by decide)).2.1 rfl⟩

/-- Without provisioner or without TTL, `Expiration.ShouldDeprovision` is false up to and
including the instant 4999-11-30T00:00:00Z and true after it. -/
theorem Expiration_ShouldDeprovision_no_ttl (c : Candidate) (now : Time)
    (hc : c.provisioner = none
      ∨ ∃ p, c.provisioner = some p ∧ p.TTLSecondsUntilExpired = none) :
    (now ≤ Date 4999 11 30 0 0 0 0 → Expiration.ShouldDeprovision now c = false)
    ∧ (Date 4999 11 30 0 0 0 0 < now → Expiration.ShouldDeprovision now c = true) := by
  unfold Expiration.ShouldDeprovision
  rw [getExpirationTime_no_ttl c hc, sentinel_eq]
  constructor
  · intro h
    simp [Time.After, not_lt.mpr h]
  · intro h
    simp [Time.After, h]

/-- C4 (expiration default), evaluated where it breaks: the sentinel
`time.Date(5000, 0, 0, 0, 0, 0, 0, time.UTC)` is 4999-11-30T00:00:00Z, one month and one
day short of the year 5000, so on 4999-12-01, which is before the start of the year 5000,
the candidate without provisioner satisfies `Expiration.ShouldDeprovision`. -/
theorem C4_expiration_default_fails_before_5000 :
    candidateNoProvisioner.provisioner = none
    ∧ getExpirationTime candidateNoProvisioner.Node candidateNoProvisioner.provisioner
      = Date 4999 11 30 0 0 0 0
    ∧ Date 4999 12 1 0 0 0 0 < Date 5000 1 1 0 0 0 0
    ∧ Expiration.ShouldDeprovision (Date 4999 12 1 0 0 0 0) candidateNoProvisioner = true := by
  decide

/-- C9 as stated fails: the filter lets through a candidate with a TTL whose expiration time
is 5001-01-01 and a candidate without provisioner; the sorted list puts the candidate
without provisioner first, before the candidate that has a TTL. -/
theorem C9_expiration_ordering_counterexample :
    Expiration.filterAndSortCandidates filterKeepsAll
        [candidateFarFuture, candidateNoProvisioner]
      = ([candidateNoProvisioner, candidateFarFuture], none)
    ∧ candidateNoProvisioner.hasTTL = false
    ∧ candidateFarFuture.hasTTL = true := by
  decide

/-- C9 amended: the list returned by `filterAndSortCandidates` is in ascending order of
expiration time (a later position never expires before an earlier one), and every candidate
without provisioner or without TTL comes after every candidate that has a TTL and whose
expiration time is before the sentinel `time.Date(5000, 0, 0, 0, 0, 0, 0, time.UTC)`. -/
theorem C9_expiration_ordering_amended (filter : List Candidate → FilterResult)
    (nodes sorted : List Candidate)
    (h : Expiration.filterAndSortCandidates filter nodes = (sorted, none)) :
    (∀ (i j : Nat) (a b : Candidate), i < j → sorted[i]? = some a → sorted[j]? = some b →
        Time.Before (getExpirationTime b.Node b.provisioner)
          (getExpirationTime a.Node a.provisioner) = false)
    ∧ (∀ (i j : Nat) (a b : Candidate), sorted[i]? = some a → sorted[j]? = some b →
        a.hasTTL = false → b.hasTTL = true →
        getExpirationTime b.Node b.provisioner < Date 5000 0 0 0 0 0 0 → j < i) := by
  have hp := Expiration_filterAndSortCandidates_pairwise filter nodes sorted h
  constructor
  · intro i j a b hij ha hb
    have hle := pairwise_getElem? hp i j a b hij ha hb
    simp [Time.Before, not_lt.mpr hle]
  · intro i j a b ha hb hna hnb hlt
    have hea : getExpirationTime a.Node a.provisioner = Date 5000 0 0 0 0 0 0 :=
      Candidate_expirationTime_of_not_hasTTL a hna
    rcases Nat.lt_trichotomy i j with hij | hij | hij
    · have hle := pairwise_getElem? hp i j a b hij ha hb
      rw [hea] at hle
      exact absurd hlt (not_lt.mpr hle)
    · subst hij
      rw [ha] at hb
      cases hb
      rw [hna] at hnb
      cases hnb
    · exact hij

/-- C9 amended on five sample candidates: the three with a TTL expiring in 2023 come out in
ascending order and before the candidate without provisioner. -/
theorem C9_expiration_ordering_amended_witness :
    Expiration.filterAndSortCandidates filterKeepsAll
        [candidateNoProvisioner, candidateC, candidateA, candidateB]
      = ([candidateA, candidateB, candidateC, candidateNoProvisioner], none)
    ∧ Time.Before (getExpirationTime candidateB.Node candidateB.provisioner)
        (getExpirationTime candidateA.Node candidateA.provisioner) = false
    ∧ 2 < 3 :=
  ⟨by decide,
   (C9_expiration_ordering_amended filterKeepsAll
      [candidateNoProvisioner, candidateC, candidateA, candidateB]
      [candidateA, candidateB, candidateC, candidateNoProvisioner] (by decide)).1
      0 1 candidateA candidateB (by decide) rfl rfl,
   (C9_expiration_ordering_amended filterKeepsAll
      [candidateNoProvisioner, candidateC, candidateA, candidateB]
      [candidateA, candidateB, candidateC, candidateNoProvisioner] (by decide)).2
      3 2 candidateNoProvisioner candidateC rfl rfl (by decide) (by decide) (by decide)⟩

/-- C10 (hard gate error aborts): when the candidates before `c` in evaluation order are all
reported deleting and the simulation of `c` fails with an error `e` that is not
`errCandidateDeleting`, both `Drift.ComputeCommand` (evaluation order: the filter output)
and `Expiration.ComputeCommand` (evaluation order: the sorted filter output) return the
error `e` itself with a command holding no candidates and no replacements, and they return
the same for any simulation that agrees on the candidates up to `c`. -/
theorem C10_hard_gate_error_aborts (zero : Action) (filter : List Candidate → FilterResult)
    (sim sim2 : Candidate → SimResult) (nodes pre post : List Candidate) (c : Candidate)
    (e : GoError)
    (hpre : ∀ x ∈ pre, isCandidateDeleting (sim x).2.2 = true)
    (hc : (sim c).2.2 = some e) (he : errorsIs e errCandidateDeleting = false)
    (hagree : ∀ x ∈ pre ++ [c], sim2 x = sim x) :
    (filter nodes = (pre ++ c :: post, none) →
      Drift.ComputeCommand zero filter sim nodes
          = ({ candidates := [], action := zero, replacements := [] }, some e)
      ∧ Drift.ComputeCommand zero filter sim2 nodes
          = Drift.ComputeCommand zero filter sim nodes)
    ∧ (Expiration.filterAndSortCandidates filter nodes = (pre ++ c :: post, none) →
      Expiration.ComputeCommand zero filter sim nodes
          = .returned ({ candidates := [], action := zero, replacements := [] }, some e)
      ∧ Expiration.ComputeCommand zero filter sim2 nodes
          = Expiration.ComputeCommand zero filter sim nodes) := by
  have hpre2 : ∀ x ∈ pre, isCandidateDeleting (sim2 x).2.2 = true := by
    intro x hx
    rw [hagree x (List.mem_append_left _ hx)]
    exact hpre x hx
  have hc2 : (sim2 c).2.2 = some e := by
    rw [hagree c (List.mem_append_right _ (List.mem_singleton_self c))]
    exact hc
  constructor
  · intro hf
    have h1 := Drift_computeLoop_hard_error zero sim pre post c e hpre hc he
    have h2 := Drift_computeLoop_hard_error zero sim2 pre post c e hpre2 hc2 he
    simp only [Drift.ComputeCommand, hf, h1, h2, Command.empty, and_self]
  · intro hf
    have h1 := Expiration_computeLoop_hard_error zero sim (pre ++ c :: post) pre post c e
      hpre hc he
    have h2 := Expiration_computeLoop_hard_error zero sim2 (pre ++ c :: post) pre post c e
      hpre2 hc2 he
    simp only [Expiration.ComputeCommand, hf, h1, h2, Command.empty, and_self]

/-- C10 on three sample candidates: the first is reported deleting, the second meets a
cancelled context, the third is never looked at. -/
theorem C10_hard_gate_error_aborts_witness :
    Drift.ComputeCommand .actionDelete filterKeepsAll simulateDeletingThenCanceled
        [candidateA, candidateB, candidateC]
      = ({ candidates := [], action := .actionDelete, replacements := [] },
          some .contextCanceled)
    ∧ Expiration.ComputeCommand .actionDelete filterKeepsAll simulateDeletingThenCanceled
        [candidateC, candidateB, candidateA]
      = .returned ({ candidates := [], action := .actionDelete, replacements := [] },
          some .contextCanceled) :=
  ⟨((C10_hard_gate_error_aborts .actionDelete filterKeepsAll simulateDeletingThenCanceled
        simulateDeletingThenCanceled [candidateA, candidateB, candidateC] [candidateA]
        [candidateC] candidateB .contextCanceled (by decide) (by decide) (by decide)
        (fun _ _ => rfl)).1 (by decide)).1,
   ((C10_hard_gate_error_aborts .actionDelete filterKeepsAll simulateDeletingThenCanceled
        simulateDeletingThenCanceled [candidateC, candidateB, candidateA] [candidateA]
        [candidateC] candidateB .contextCanceled (by decide) (by decide) (by decide)
        (fun _ _ => rfl)).2 (by decide)).1⟩

/-! ## Lemmas on the garbage collector -/

/-- The three ways a call of `Reconcile` can go: it touches nothing; or the provider reports
the machine as not found and the record is deleted; or the provider does not report it as
not found and the cache entry is written. -/
theorem GarbageCollect_Reconcile_cases (d : Duration) (w : Collaborators) (cache : Cache)
    (m : v1alpha5.Machine) :
    ((GarbageCollect.Reconcile d w cache m).effects = []
      ∧ (GarbageCollect.Reconcile d w cache m).lastChecked = cache)
    ∨ (IsMachineNotFoundError (w.cloudProviderGet m.ProviderID) = true
      ∧ (GarbageCollect.Reconcile d w cache m).effects
          = [.providerGet m.ProviderID, .kubeDelete (ObjectKey m)]
      ∧ (GarbageCollect.Reconcile d w cache m).lastChecked = cache)
    ∨ (IsMachineNotFoundError (w.cloudProviderGet m.ProviderID) = false
      ∧ (GarbageCollect.Reconcile d w cache m).effects
          = [.providerGet m.ProviderID, .cacheSetDefault (ObjectKey m)]
      ∧ (GarbageCollect.Reconcile d w cache m).lastChecked
          = cache.SetDefault w.now d (ObjectKey m)) := by
  unfold GarbageCollect.Reconcile
  by_cases hcr : m.MachineCreated = true
  · by_cases hn : ((w.NodeForMachine m).isNone || !IsNodeNotFoundError (w.NodeForMachine m)) = true
    · simp [hcr, hn]
    · cases hg : cache.GetWithExpiration w.now (ObjectKey m) with
      | some t => simp [hcr, hn, hg]
      | none =>
        by_cases hp : IsMachineNotFoundError (w.cloudProviderGet m.ProviderID) = true
        · cases hd : w.kubeDelete m <;> simp [hcr, hn, hg, hp, hd]
        · simp [hcr, hn, hg, hp]
  · simp [hcr]

/-- The cache lookup fails exactly when every entry stored under the key, if there is one,
has a positive expiration that the clock has passed. -/
theorem Cache_GetWithExpiration_eq_none_iff (c : Cache) (now : Time) (k : String) :
    c.GetWithExpiration now k = none ↔ ∀ e, c k = some e → 0 < e ∧ e < now := by
  unfold Cache.GetWithExpiration
  cases h : c k with
  | none => simp
  | some x =>
    by_cases hpos : x > 0
    · by_cases hlt : now > x
      · simp [hpos, hlt]
      · simp [hpos, hlt]
    · simp [hpos]

/-- A call made while the cache holds a live entry for the record touches nothing. -/
theorem GarbageCollect_Reconcile_live_entry (d : Duration) (w : Collaborators) (cache : Cache)
    (m : v1alpha5.Machine) (e : Int) (he : cache (ObjectKey m) = some e)
    (hlive : e ≤ 0 ∨ w.now ≤ e) :
    (GarbageCollect.Reconcile d w cache m).effects = []
    ∧ (GarbageCollect.Reconcile d w cache m).lastChecked = cache := by
  have hg : ∃ t, cache.GetWithExpiration w.now (ObjectKey m) = some t := by
    unfold Cache.GetWithExpiration
    rw [he]
    by_cases hpos : e > 0
    · have hle : w.now ≤ e := by
        rcases hlive with h | h
        · omega
        · exact h
      exact ⟨e, by simp [hpos, not_lt.mpr hle]⟩
    · exact ⟨zeroTime, by simp [hpos]⟩
  rcases hg with ⟨t, hg⟩
  unfold GarbageCollect.Reconcile
  by_cases hcr : m.MachineCreated = true
  · by_cases hn : ((w.NodeForMachine m).isNone || !IsNodeNotFoundError (w.NodeForMachine m)) = true
    · simp [hcr, hn]
    · simp [hcr, hn, hg]
  · simp [hcr]

/-- Calls made while the cache holds an entry for the record that stays live up to `T`, all
at clock values not after `T`, touch nothing. -/
theorem GarbageCollect_ReconcileSeq_live_entry (d : Duration) (m : v1alpha5.Machine)
    (T : Time) (calls : List Collaborators) (cache : Cache) (e : Int)
    (he : cache (ObjectKey m) = some e) (hlive : e ≤ 0 ∨ T ≤ e)
    (hnow : ∀ w ∈ calls, w.now ≤ T) :
    GarbageCollect.ReconcileSeq d m cache calls = (cache, []) := by
  induction calls with
  | nil => rfl
  | cons w ws ih =>
    have hw : w.now ≤ T := hnow w (List.mem_cons_self _ _)
    have hlive2 : e ≤ 0 ∨ w.now ≤ e := by
      rcases hlive with h | h
      · exact Or.inl h
      · exact Or.inr (le_trans hw h)
    have h1 := GarbageCollect_Reconcile_live_entry d w cache m e he hlive2
    have ih2 := ih (fun x hx => hnow x (List.mem_cons_of_mem _ hx))
    simp only [GarbageCollect.ReconcileSeq, h1.1, h1.2, ih2, List.nil_append]

/-- Once a call has found the backing resource at the provider, the later calls of the
window, whose clock values do not exceed that of this call plus the default expiration,
touch nothing: the trace of the whole sequence is the trace of its first call. -/
theorem GarbageCollect_ReconcileSeq_after_query (d : Duration) (m : v1alpha5.Machine)
    (T : Time) (cache : Cache) (w : Collaborators) (ws : List Collaborators)
    (hT : T ≤ w.now + d) (hnow : ∀ x ∈ ws, x.now ≤ T)
    (hq : (GarbageCollect.Reconcile d w cache m).effects.any Effect.isProviderGet = true)
    (hfound : w.cloudProviderGet m.ProviderID = none) :
    (GarbageCollect.ReconcileSeq d m cache (w :: ws)).2
      = [.providerGet m.ProviderID, .cacheSetDefault (ObjectKey m)] := by
  rcases GarbageCollect_Reconcile_cases d w cache m with h | h | h
  · rw [h.1] at hq
    simp at hq
  · rw [hfound] at h
    simp [IsMachineNotFoundError] at h
  · have hentry : (cache.SetDefault w.now d (ObjectKey m)) (ObjectKey m)
        = some (if d > 0 then w.now + d else 0) := by
      simp [Cache.SetDefault]
    have hlive : (if d > 0 then w.now + d else 0) ≤ 0
        ∨ T ≤ (if d > 0 then w.now + d else 0) := by
      by_cases hd : d > 0
      · right
        simp only [hd, if_true]
        exact hT
      · left
        simp [hd]
    have hrest := GarbageCollect_ReconcileSeq_live_entry d m T ws
      (cache.SetDefault w.now d (ObjectKey m)) _ hentry hlive hnow
    simp [GarbageCollect.ReconcileSeq, h.2.1, h.2.2, hrest]

/-! ## The claims on garbagecollect.go -/

/-- C5 as stated fails: for a created record whose node lookup fails with an error other
than node-not-found, `Reconcile` returns a nil error. -/
theorem C5_failure_semantics_counterexample :
    sampleMachine.MachineCreated = true
    ∧ IsNodeNotFoundError (some (.other "connection refused")) = false
    ∧ (GarbageCollect.Reconcile tenMinutes
        (collaborators sampleNow (some (.other "connection refused")) none none)
        emptyCache sampleMachine).err = none := by
  decide

/-- C5 amended: for a created record, a node lookup that fails with an error other than
node-not-found makes `Reconcile` return a nil error without querying, deleting or caching
anything; and when the deletion is reached (node not found, no live cache entry, machine not
found at the provider) and fails with an error other than "not found", `Reconcile` returns
that error. -/
theorem C5_failure_semantics_amended (d : Duration) (w : Collaborators) (cache : Cache)
    (m : v1alpha5.Machine) (hcreated : m.MachineCreated = true) :
    (∀ e, w.NodeForMachine m = some e → IsNodeNotFoundError (some e) = false →
        (GarbageCollect.Reconcile d w cache m).err = none
        ∧ (GarbageCollect.Reconcile d w cache m).effects = []
        ∧ (GarbageCollect.Reconcile d w cache m).lastChecked = cache)
    ∧ (∀ e, IsNodeNotFoundError (w.NodeForMachine m) = true →
        cache.GetWithExpiration w.now (ObjectKey m) = none →
        IsMachineNotFoundError (w.cloudProviderGet m.ProviderID) = true →
        w.kubeDelete m = some e → IsNotFound e = false →
        (GarbageCollect.Reconcile d w cache m).err = some e) := by
  constructor
  · intro e he hne
    unfold GarbageCollect.Reconcile
    simp [hcreated, he, hne]
  · intro e hn hg hp hd hnf
    have hsome : (w.NodeForMachine m).isNone = false := by
      cases h : w.NodeForMachine m with
      | none => rw [h] at hn; simp [IsNodeNotFoundError] at hn
      | some x => rfl
    unfold GarbageCollect.Reconcile
    simp [hcreated, hn, hsome, hg, hp, hd, IgnoreNotFound, hnf]

/-- C5 amended on the sample record: the failed deletion surfaces its error. -/
theorem C5_failure_semantics_amended_witness :
    sampleMachine.MachineCreated = true
    ∧ (GarbageCollect.Reconcile tenMinutes collaboratorsDeleteFails emptyCache
        sampleMachine).err = some (.other "etcdserver: request timed out") :=
  ⟨rfl,
   (C5_failure_semantics_amended tenMinutes collaboratorsDeleteFails emptyCache sampleMachine
      rfl).2 (.other "etcdserver: request timed out") (by decide) (by decide) (by decide)
      rfl (by decide)⟩

/-- C6 as stated fails: two consecutive calls at the same clock value on a record that is
absent at the provider, and whose deletion fails, both query the provider; the second call
is not a cache hit, since nothing was cached. -/
theorem C6_provider_query_bound_counterexample :
    (GarbageCollect.ReconcileSeq tenMinutes sampleMachine emptyCache
        [collaboratorsDeleteFails, collaboratorsDeleteFails]).2
      = [.providerGet "provider://i-1", .kubeDelete "/machine-1",
         .providerGet "provider://i-1", .kubeDelete "/machine-1"]
    ∧ ((GarbageCollect.ReconcileSeq tenMinutes sampleMachine emptyCache
        [collaboratorsDeleteFails, collaboratorsDeleteFails]).2.countP
          Effect.isProviderGet) = 2 := by
  decide

/-- C6 amended: over any sequence of calls of `Reconcile` on one record whose clock values
all lie in one window `[t0, t0 + defaultExpiration]`, and during which the provider finds
the backing resource whenever it is asked, the provider is queried at most once, whatever
the cache held at the start; and when the first call of the sequence queries the provider,
all later calls are cache hits that query, delete and cache nothing. -/
theorem C6_provider_query_bound_amended (d : Duration) (m : v1alpha5.Machine) (t0 : Time)
    (cache : Cache) (calls : List Collaborators)
    (hwin : ∀ w ∈ calls, t0 ≤ w.now ∧ w.now ≤ t0 + d)
    (hfound : ∀ w ∈ calls, w.cloudProviderGet m.ProviderID = none) :
    (GarbageCollect.ReconcileSeq d m cache calls).2.countP Effect.isProviderGet ≤ 1
    ∧ (∀ w ws, calls = w :: ws →
        (GarbageCollect.Reconcile d w cache m).effects.any Effect.isProviderGet = true →
        (GarbageCollect.ReconcileSeq d m cache calls).2
          = (GarbageCollect.Reconcile d w cache m).effects) := by
  constructor
  · induction calls generalizing cache with
    | nil => simp [GarbageCollect.ReconcileSeq]
    | cons w ws ih =>
      have hw := hwin w (List.mem_cons_self _ _)
      have hws : ∀ x ∈ ws, t0 ≤ x.now ∧ x.now ≤ t0 + d :=
        fun x hx => hwin x (List.mem_cons_of_mem _ hx)
      have hfw := hfound w (List.mem_cons_self _ _)
      have hfws : ∀ x ∈ ws, x.cloudProviderGet m.ProviderID = none :=
        fun x hx => hfound x (List.mem_cons_of_mem _ hx)
      by_cases hq :
          (GarbageCollect.Reconcile d w cache m).effects.any Effect.isProviderGet = true
      · rw [GarbageCollect_ReconcileSeq_after_query d m (t0 + d) cache w ws
          (add_le_add_right hw.1 d) (fun x hx => (hws x hx).2) hq hfw]
        simp [Effect.isProviderGet]
      · rcases GarbageCollect_Reconcile_cases d w cache m with h | h | h
        · simp only [GarbageCollect.ReconcileSeq, h.1, h.2, List.nil_append]
          exact ih cache hws hfws
        · rw [h.2.1] at hq
          simp [Effect.isProviderGet] at hq
        · rw [h.2.1] at hq
          simp [Effect.isProviderGet] at hq
  · intro w ws hcalls hq
    subst hcalls
    have hw := hwin w (List.mem_cons_self _ _)
    have hfw := hfound w (List.mem_cons_self _ _)
    rw [GarbageCollect_ReconcileSeq_after_query d m (t0 + d) cache w ws
      (add_le_add_right hw.1 d)
      (fun x hx => (hwin x (List.mem_cons_of_mem _ hx)).2) hq hfw]
    rcases GarbageCollect_Reconcile_cases d w cache m with h | h | h
    · rw [h.1] at hq
      simp at hq
    · rw [hfw] at h
      simp [IsMachineNotFoundError] at h
    · exact h.2.1.symm

/-- C6 amended on three calls within ten minutes for a record the provider finds: the first
call queries the provider and writes the cache entry, the other two touch nothing. -/
theorem C6_provider_query_bound_amended_witness :
    (GarbageCollect.ReconcileSeq tenMinutes sampleMachine emptyCache
        [collaboratorsFound sampleNow, collaboratorsFound (sampleNow + 60 * Second),
         collaboratorsFound (sampleNow + tenMinutes)]).2
      = [.providerGet "provider://i-1", .cacheSetDefault "/machine-1"]
    ∧ (GarbageCollect.ReconcileSeq tenMinutes sampleMachine emptyCache
        [collaboratorsFound sampleNow, collaboratorsFound (sampleNow + 60 * Second),
         collaboratorsFound (sampleNow + tenMinutes)]).2.countP Effect.isProviderGet ≤ 1 :=
  ⟨by decide,
   (C6_provider_query_bound_amended tenMinutes sampleMachine sampleNow emptyCache
     [collaboratorsFound sampleNow, collaboratorsFound (sampleNow + 60 * Second),
      collaboratorsFound (sampleNow + tenMinutes)] (by decide) (by decide)).1⟩

/-- C7 (deletion condition): `Reconcile` issues a delete exactly when the record has the
MachineCreated condition, the node lookup reports node-not-found, the cache has no unexpired
entry for the record's key (the lookup `GetWithExpiration` fails: any entry stored under
the key has a positive expiration that the clock has passed) and the provider reports
machine-not-found; and the only record it ever deletes is the one it was called for. -/
theorem C7_deletion_condition (d : Duration) (w : Collaborators) (cache : Cache)
    (m : v1alpha5.Machine) :
    ((GarbageCollect.Reconcile d w cache m).effects.any Effect.isKubeDelete = true
      ↔ m.MachineCreated = true
        ∧ IsNodeNotFoundError (w.NodeForMachine m) = true
        ∧ cache.GetWithExpiration w.now (ObjectKey m) = none
        ∧ IsMachineNotFoundError (w.cloudProviderGet m.ProviderID) = true)
    ∧ (cache.GetWithExpiration w.now (ObjectKey m) = none
      ↔ ∀ e, cache (ObjectKey m) = some e → 0 < e ∧ e < w.now)
    ∧ (∀ eff ∈ (GarbageCollect.Reconcile d w cache m).effects,
        eff.isKubeDelete = true → eff = .kubeDelete (ObjectKey m)) := by
  refine ⟨?_, Cache_GetWithExpiration_eq_none_iff cache w.now (ObjectKey m), ?_⟩
  · unfold GarbageCollect.Reconcile
    by_cases hcr : m.MachineCreated = true
    · cases hnode : w.NodeForMachine m with
      | none => simp [hcr, IsNodeNotFoundError]
      | some ne =>
        by_cases hn : IsNodeNotFoundError (some ne) = true
        · cases hg : cache.GetWithExpiration w.now (ObjectKey m) with
          | some t => simp [hcr, hn, hg]
          | none =>
            by_cases hp : IsMachineNotFoundError (w.cloudProviderGet m.ProviderID) = true
            · cases hd : w.kubeDelete m <;> simp [hcr, hn, hg, hp, hd, Effect.isKubeDelete]
            · simp [hcr, hn, hg, hp, Effect.isKubeDelete]
        · simp [hcr, hn]
    · simp [hcr]
  · intro eff heff hdel
    rcases GarbageCollect_Reconcile_cases d w cache m with h | h | h
    · rw [h.1] at heff
      cases heff
    · rw [h.2.1] at heff
      simp only [List.mem_cons, List.mem_singleton, List.not_mem_nil, or_false] at heff
      rcases heff with rfl | rfl
      · simp [Effect.isKubeDelete] at hdel
      · rfl
    · rw [h.2.1] at heff
      simp only [List.mem_cons, List.mem_singleton, List.not_mem_nil, or_false] at heff
      rcases heff with rfl | rfl <;> simp [Effect.isKubeDelete] at hdel

/-- C8 (presence-cache insertion), evaluated where it breaks: for a created record without
node and without cache entry, the provider query fails with an error other than
machine-not-found; `Reconcile` writes the cache entry for the record's key, expiring ten
minutes later, and returns a nil error. -/
theorem C8_cache_insert_on_provider_error :
    IsMachineNotFoundError (some (.other "RequestLimitExceeded")) = false
    ∧ (GarbageCollect.Reconcile tenMinutes
        (collaborators sampleNow (some .nodeNotFound) (some (.other "RequestLimitExceeded"))
          none) emptyCache sampleMachine).effects
      = [.providerGet "provider://i-1", .cacheSetDefault "/machine-1"]
    ∧ (GarbageCollect.Reconcile tenMinutes
        (collaborators sampleNow (some .nodeNotFound) (some (.other "RequestLimitExceeded"))
          none) emptyCache sampleMachine).err = none
    ∧ (GarbageCollect.Reconcile tenMinutes
        (collaborators sampleNow (some .nodeNotFound) (some (.other "RequestLimitExceeded"))
          none) emptyCache sampleMachine).lastChecked "/machine-1"
      = some (sampleNow + tenMinutes) := by
  decide

/-! ## Further lemmas on the command loops -/

/-- The Drift loop over candidates that are all reported deleting does nothing. -/
theorem Drift_computeLoop_all_deleting (zero : Action) (sim : Candidate → SimResult)
    (l : List Candidate) (hall : ∀ x ∈ l, isCandidateDeleting (sim x).2.2 = true) :
    Drift.computeLoop zero sim l
      = ({ candidates := [], action := .actionDoNothing, replacements := [] }, none) := by
  have h := Drift_computeLoop_skip zero sim l [] hall
  rw [List.append_nil] at h
  rw [h]
  rfl

/-- The Expiration loop over candidates that are all reported deleting does nothing. -/
theorem Expiration_computeLoop_all_deleting (zero : Action) (sim : Candidate → SimResult)
    (all l : List Candidate) (hall : ∀ x ∈ l, isCandidateDeleting (sim x).2.2 = true) :
    Expiration.computeLoop zero sim all l
      = .returned
          ({ candidates := [], action := .actionDoNothing, replacements := [] }, none) := by
  have h := Expiration_computeLoop_skip zero sim all l [] hall
  rw [List.append_nil] at h
  rw [h]
  rfl

/-- The Drift loop does not read the "all pods scheduled" flag. -/
theorem Drift_computeLoop_congr (zero : Action) (sim sim2 : Candidate → SimResult)
    (hsame : ∀ c, (sim c).1 = (sim2 c).1 ∧ (sim c).2.2 = (sim2 c).2.2)
    (l : List Candidate) :
    Drift.computeLoop zero sim l = Drift.computeLoop zero sim2 l := by
  induction l with
  | nil => rfl
  | cons a l ih =>
    have ha := hsame a
    rcases h1 : sim a with ⟨ms, b, err⟩
    rcases h2 : sim2 a with ⟨ms2, b2, err2⟩
    rw [h1, h2] at ha
    simp only at ha
    rcases ha with ⟨hm, he⟩
    subst hm
    subst he
    cases err with
    | none => simp only [Drift.computeLoop, h1, h2]
    | some e => simp only [Drift.computeLoop, h1, h2, ih]

/-- The Expiration loop does not read the "all pods scheduled" flag. -/
theorem Expiration_computeLoop_congr (zero : Action) (sim sim2 : Candidate → SimResult)
    (hsame : ∀ c, (sim c).1 = (sim2 c).1 ∧ (sim c).2.2 = (sim2 c).2.2)
    (all l : List Candidate) :
    Expiration.computeLoop zero sim all l = Expiration.computeLoop zero sim2 all l := by
  induction l with
  | nil => rfl
  | cons a l ih =>
    have ha := hsame a
    rcases h1 : sim a with ⟨ms, b, err⟩
    rcases h2 : sim2 a with ⟨ms2, b2, err2⟩
    rw [h1, h2] at ha
    simp only at ha
    rcases ha with ⟨hm, he⟩
    subst hm
    subst he
    cases err with
    | none => simp only [Expiration.computeLoop, h1, h2]
    | some e => simp only [Expiration.computeLoop, h1, h2, ih]

/-- On a filter success the sorted candidates are the sort of the survivors. -/
theorem Expiration_filterAndSortCandidates_ok (filter : List Candidate → FilterResult)
    (nodes survivors : List Candidate) (hf : filter nodes = (survivors, none)) :
    Expiration.filterAndSortCandidates filter nodes
      = (sortSlice expirationLess survivors, none) := by
  simp only [Expiration.filterAndSortCandidates, hf]

/-! ## The claims on the command computation, continued -/

/-- C11 (Drift action selection): when the candidates before `c` in filter order are all
reported deleting and the simulation of `c` succeeds with the replacement list `R`,
`Drift.ComputeCommand` returns, with a nil error, the delete command for `c` without
replacements if `R` is empty, and the replace command for `c` carrying exactly `R`
otherwise. -/
theorem C11_drift_action_selection (zero : Action) (filter : List Candidate → FilterResult)
    (sim : Candidate → SimResult) (nodes pre post : List Candidate) (c : Candidate)
    (R : List scheduling.Machine) (b : Bool)
    (hf : filter nodes = (pre ++ c :: post, none))
    (hpre : ∀ x ∈ pre, isCandidateDeleting (sim x).2.2 = true)
    (hc : sim c = (R, b, none)) :
    (R = [] → Drift.ComputeCommand zero filter sim nodes
        = ({ candidates := [c], action := .actionDelete, replacements := [] }, none))
    ∧ (R ≠ [] → Drift.ComputeCommand zero filter sim nodes
        = ({ candidates := [c], action := .actionReplace, replacements := R }, none)) := by
  have hnone : (sim c).2.2 = none := by rw [hc]
  have h := Drift_computeLoop_first_feasible zero sim pre post c hpre hnone
  rw [hc] at h
  simp only at h
  constructor
  · intro hR
    subst hR
    simp only [Drift.ComputeCommand, hf, h, List.length_nil, if_true]
  · intro hR
    have hlen : ¬ R.length = 0 := fun h0 => hR (List.length_eq_zero.mp h0)
    simp only [Drift.ComputeCommand, hf, h, hlen, if_false]

/-- C11 on three sample candidates: the first is reported deleting; the second gets the
replace command with both replacements in order, or the delete command when none is
needed. -/
theorem C11_drift_action_selection_witness :
    Drift.ComputeCommand .actionDelete filterKeepsAll simulateDeletingThenTwo
        [candidateA, candidateB, candidateC]
      = ({ candidates := [candidateB], action := .actionReplace,
           replacements := [{ id := 1 }, { id := 2 }] }, none)
    ∧ Drift.ComputeCommand .actionDelete filterKeepsAll simulateDeletingThenNone
        [candidateA, candidateB, candidateC]
      = ({ candidates := [candidateB], action := .actionDelete, replacements := [] }, none) :=
  ⟨(C11_drift_action_selection .actionDelete filterKeepsAll simulateDeletingThenTwo
      [candidateA, candidateB, candidateC] [candidateA] [candidateC] candidateB
      [{ id := 1 }, { id := 2 }] false rfl (by decide) (by decide)).2 (by decide),
   (C11_drift_action_selection .actionDelete filterKeepsAll simulateDeletingThenNone
      [candidateA, candidateB, candidateC] [candidateA] [candidateC] candidateB
      [] true rfl (by decide) (by decide)).1 rfl⟩

/-- C12 (no feasible candidate): when the filter succeeds and every surviving candidate is
reported deleting, which includes the case of no survivor at all, both
`Drift.ComputeCommand` and `Expiration.ComputeCommand` return the do-nothing command, with
no candidates and no replacements, and a nil error. -/
theorem C12_no_feasible_candidate (zero : Action) (filter : List Candidate → FilterResult)
    (sim : Candidate → SimResult) (nodes survivors : List Candidate)
    (hf : filter nodes = (survivors, none))
    (hall : ∀ x ∈ survivors, isCandidateDeleting (sim x).2.2 = true) :
    Drift.ComputeCommand zero filter sim nodes
      = ({ candidates := [], action := .actionDoNothing, replacements := [] }, none)
    ∧ Expiration.ComputeCommand zero filter sim nodes
      = .returned
          ({ candidates := [], action := .actionDoNothing, replacements := [] }, none) := by
  constructor
  · simp only [Drift.ComputeCommand, hf]
    exact Drift_computeLoop_all_deleting zero sim survivors hall
  · have hsorted : ∀ x ∈ sortSlice expirationLess survivors,
        isCandidateDeleting (sim x).2.2 = true :=
      fun x hx => hall x ((sortSlice_perm expirationLess survivors).subset hx)
    simp only [Expiration.ComputeCommand,
      Expiration_filterAndSortCandidates_ok filter nodes survivors hf]
    exact Expiration_computeLoop_all_deleting zero sim _ _ hsorted

/-- C12 on three sample candidates all reported deleting, and on the empty list. -/
theorem C12_no_feasible_candidate_witness :
    (Drift.ComputeCommand .actionDelete filterKeepsAll simulateAllDeleting
        [candidateC, candidateA, candidateB]
      = ({ candidates := [], action := .actionDoNothing, replacements := [] }, none)
    ∧ Expiration.ComputeCommand .actionDelete filterKeepsAll simulateAllDeleting
        [candidateC, candidateA, candidateB]
      = .returned
          ({ candidates := [], action := .actionDoNothing, replacements := [] }, none))
    ∧ Expiration.ComputeCommand .actionDelete filterKeepsAll simulateOneReplacement []
      = .returned
          ({ candidates := [], action := .actionDoNothing, replacements := [] }, none) :=
  ⟨C12_no_feasible_candidate .actionDelete filterKeepsAll simulateAllDeleting
      [candidateC, candidateA, candidateB] [candidateC, candidateA, candidateB] rfl
      (by decide),
   (C12_no_feasible_candidate .actionDelete filterKeepsAll simulateOneReplacement [] [] rfl
      (by decide)).2⟩

/-- C16 (simulation infeasibility does not block): two simulations that return the same
replacement lists and the same errors for every candidate, and may differ in the "all pods
scheduled" flag, make `Drift.ComputeCommand` return the same command and error and make
`Expiration.ComputeCommand` end the same way. -/
theorem C16_infeasibility_does_not_block (zero : Action)
    (filter : List Candidate → FilterResult) (sim sim2 : Candidate → SimResult)
    (nodes : List Candidate)
    (hsame : ∀ c, (sim c).1 = (sim2 c).1 ∧ (sim c).2.2 = (sim2 c).2.2) :
    Drift.ComputeCommand zero filter sim nodes = Drift.ComputeCommand zero filter sim2 nodes
    ∧ Expiration.ComputeCommand zero filter sim nodes
      = Expiration.ComputeCommand zero filter sim2 nodes := by
  constructor
  · unfold Drift.ComputeCommand
    rcases filter nodes with ⟨cs, err⟩
    cases err with
    | some e => rfl
    | none => exact Drift_computeLoop_congr zero sim sim2 hsame cs
  · unfold Expiration.ComputeCommand
    rcases Expiration.filterAndSortCandidates filter nodes with ⟨cs, err⟩
    cases err with
    | some e => rfl
    | none => exact Expiration_computeLoop_congr zero sim sim2 hsame cs cs

/-- C16 on a sample candidate: with all pods scheduled or not, the replace command is the
same. -/
theorem C16_infeasibility_does_not_block_witness :
    Drift.ComputeCommand .actionDelete filterKeepsAll simulateOneReplacementUnplaced
        [candidateA]
      = ({ candidates := [candidateA], action := .actionReplace,
           replacements := [{ id := 1 }] }, none)
    ∧ Expiration.ComputeCommand .actionDelete filterKeepsAll simulateOneReplacementUnplaced
        [candidateA]
      = .returned
          ({ candidates := [candidateA], action := .actionReplace,
             replacements := [{ id := 1 }] }, none) :=
  ⟨((C16_infeasibility_does_not_block .actionDelete filterKeepsAll simulateOneReplacement
      simulateOneReplacementUnplaced [candidateA] (fun _ => ⟨rfl, rfl⟩)).1).symm.trans
      (by decide),
   ((C16_infeasibility_does_not_block .actionDelete filterKeepsAll simulateOneReplacement
      simulateOneReplacementUnplaced [candidateA] (fun _ => ⟨rfl, rfl⟩)).2).symm.trans
      (by decide)⟩

/-! ## Further lemmas on expiration.go -/

/-- An `int64` computation whose exact result fits returns that result. -/
theorem wrapInt64_of_fits (x : Int) (hlo : -(2 ^ 63) ≤ x) (hhi : x < 2 ^ 63) :
    wrapInt64 x = x := by
  unfold wrapInt64
  omega

/-- With a TTL whose nanosecond count fits an `int64`, the expiration time is the creation
time plus the TTL, and the predicate is true exactly after that instant. -/
theorem Expiration_ShouldDeprovision_in_range (c : Candidate) (p : Provisioner) (t : Int)
    (now : Time) (hp : c.provisioner = some p) (ht : p.TTLSecondsUntilExpired = some t)
    (hlo : -(2 ^ 63) ≤ t * Second) (hhi : t * Second < 2 ^ 63) :
    getExpirationTime c.Node c.provisioner = c.Node.CreationTimestamp + t * Second
    ∧ (Expiration.ShouldDeprovision now c = true
        ↔ c.Node.CreationTimestamp + t * Second < now) := by
  have hexp : getExpirationTime c.Node c.provisioner
      = c.Node.CreationTimestamp + t * Second := by
    simp only [getExpirationTime, hp, ht, Time.Add, wrapInt64_of_fits (t * Second) hlo hhi]
  refine ⟨hexp, ?_⟩
  simp only [Expiration.ShouldDeprovision, hexp, Time.After, decide_eq_true_eq]

/-- A command with a candidate comes out of the Expiration loop only for the first
candidate that is not reported deleting, whose simulation succeeded. -/
theorem Expiration_computeLoop_returned_candidate (zero : Action)
    (sim : Candidate → SimResult) (all l : List Candidate) (cmd : Command)
    (err : Option GoError) (c : Candidate)
    (h : Expiration.computeLoop zero sim all l = .returned (cmd, err))
    (hc : c ∈ cmd.candidates) :
    ∃ pre post, l = pre ++ c :: post
      ∧ (∀ x ∈ pre, isCandidateDeleting (sim x).2.2 = true)
      ∧ (sim c).2.2 = none := by
  induction l with
  | nil =>
    simp only [Expiration.computeLoop, Outcome.returned.injEq, Prod.mk.injEq] at h
    rw [← h.1] at hc
    simp at hc
  | cons a l ih =>
    rcases hs : sim a with ⟨ms, b, e⟩
    cases e with
    | some e =>
      by_cases hd : errorsIs e errCandidateDeleting = true
      · simp only [Expiration.computeLoop, hs, hd, if_true] at h
        rcases ih h with ⟨pre, post, hl, hpre, hsc⟩
        refine ⟨a :: pre, post, by rw [hl]; rfl, ?_, hsc⟩
        intro x hx
        rcases List.mem_cons.mp hx with rfl | hx
        · rw [hs]
          exact hd
        · exact hpre x hx
      · simp only [Expiration.computeLoop, hs, hd, if_false, Bool.false_eq_true,
          Outcome.returned.injEq, Prod.mk.injEq] at h
        rw [← h.1] at hc
        simp [Command.empty] at hc
    | none =>
      cases all with
      | nil => simp [Expiration.computeLoop, hs] at h
      | cons first rest =>
        cases hp : first.provisioner with
        | none => simp [Expiration.computeLoop, hs, hp] at h
        | some p =>
          simp only [Expiration.computeLoop, hs, hp, Outcome.returned.injEq,
            Prod.mk.injEq] at h
          rw [← h.1] at hc
          simp only [List.mem_singleton] at hc
          subst hc
          exact ⟨[], l, rfl, fun x hx => absurd hx (List.not_mem_nil x), by rw [hs]⟩

/-- The Expiration loop panics as soon as some candidate is feasible while the first element
of the whole slice has no provisioner. -/
theorem Expiration_computeLoop_panics (zero : Action) (sim : Candidate → SimResult)
    (first : Candidate) (tail pre post : List Candidate) (c : Candidate)
    (hfirst : first.provisioner = none)
    (hpre : ∀ x ∈ pre, isCandidateDeleting (sim x).2.2 = true)
    (hc : (sim c).2.2 = none) :
    Expiration.computeLoop zero sim (first :: tail) (pre ++ c :: post)
      = .panicked "invalid memory address or nil pointer dereference" := by
  rw [Expiration_computeLoop_skip zero sim (first :: tail) pre (c :: post) hpre]
  rcases h : sim c with ⟨ms, b, err⟩
  rw [h] at hc
  simp only at hc
  subst hc
  simp [Expiration.computeLoop, h, hfirst]

/-- An error is found by `errors.Is` in any error that wraps it. -/
theorem errorsIs_wrapped (msg : String) (e : GoError) :
    errorsIs (.wrapped msg e) e = true := by
  have hself : GoError.chainAny (fun x => decide (x = e)) e = true := by
    cases e <;> simp [GoError.chainAny]
  simp [errorsIs, GoError.chainAny, hself]

/-! ## The claims on expiration.go, continued -/

/-- C13 (expiration predicate), evaluated where it breaks: with a TTL of ten billion seconds
the product `time.Duration(ttl) * time.Second` exceeds the largest `int64` and wraps to a
negative duration, so the expiration time lies before the creation time and
`Expiration.ShouldDeprovision` is true at the very instant the node was created, which is
not after the creation time plus the TTL. -/
theorem C13_expiration_predicate_overflows :
    candidateHugeTTL.provisioner = some { TTLSecondsUntilExpired := some 10000000000 }
    ∧ candidateHugeTTL.Node.CreationTimestamp = Date 2023 1 1 0 0 0 0
    ∧ getExpirationTime candidateHugeTTL.Node candidateHugeTTL.provisioner
        = Date 2023 1 1 0 0 0 0 + (10000000000 * Second - 2 ^ 64)
    ∧ getExpirationTime candidateHugeTTL.Node candidateHugeTTL.provisioner
        < Date 2023 1 1 0 0 0 0
    ∧ Expiration.ShouldDeprovision (Date 2023 1 1 0 0 0 0) candidateHugeTTL = true
    ∧ ¬ (Date 2023 1 1 0 0 0 0 + 10000000000 * Second < Date 2023 1 1 0 0 0 0) := by
  decide

/-- C17 (most overdue first): when `Expiration.ComputeCommand` returns a command naming the
candidate `c`, the expiration time of `c` is at most the expiration time of every candidate
that survived the filter and is not reported deleting by the simulation. -/
theorem C17_most_overdue_first (zero : Action) (filter : List Candidate → FilterResult)
    (sim : Candidate → SimResult) (nodes survivors : List Candidate) (cmd : Command)
    (err : Option GoError) (c x : Candidate)
    (hf : filter nodes = (survivors, none))
    (hres : Expiration.ComputeCommand zero filter sim nodes = .returned (cmd, err))
    (hc : c ∈ cmd.candidates) (hx : x ∈ survivors)
    (hxs : isCandidateDeleting (sim x).2.2 = false) :
    getExpirationTime c.Node c.provisioner ≤ getExpirationTime x.Node x.provisioner := by
  have hsort := Expiration_filterAndSortCandidates_ok filter nodes survivors hf
  have hpw := Expiration_filterAndSortCandidates_pairwise filter nodes _ hsort
  simp only [Expiration.ComputeCommand, hsort] at hres
  rcases Expiration_computeLoop_returned_candidate zero sim _ _ cmd err c hres hc with
    ⟨pre, post, hl, hpre, _⟩
  have hxmem : x ∈ pre ++ c :: post := by
    rw [← hl]
    exact (sortSlice_perm expirationLess survivors).symm.subset hx
  rw [hl] at hpw
  rcases List.mem_append.mp hxmem with hxpre | hxrest
  · rw [hpre x hxpre] at hxs
    cases hxs
  · rcases List.mem_cons.mp hxrest with rfl | hxpost
    · exact le_refl _
    · exact (List.pairwise_cons.mp (List.pairwise_append.mp hpw).2.1).1 x hxpost

/-- C17 on three sample candidates: the earliest to expire is reported deleting, the command
names the next one, which expires no later than the third. -/
theorem C17_most_overdue_first_witness :
    Expiration.ComputeCommand .actionDelete filterKeepsAll simulateDeletingThenTwo
        [candidateC, candidateA, candidateB]
      = .returned
          ({ candidates := [candidateB], action := .actionReplace,
             replacements := [{ id := 1 }, { id := 2 }] }, none)
    ∧ getExpirationTime candidateB.Node candidateB.provisioner
        ≤ getExpirationTime candidateC.Node candidateC.provisioner :=
  ⟨by decide,
   C17_most_overdue_first .actionDelete filterKeepsAll simulateDeletingThenTwo
     [candidateC, candidateA, candidateB] [candidateC, candidateA, candidateB]
     { candidates := [candidateB], action := .actionReplace,
       replacements := [{ id := 1 }, { id := 2 }] } none candidateB candidateC rfl
     (by decide) (by decide) (by decide) (by decide)⟩

/-- C18 (`Expiration.ComputeCommand` is total), evaluated where it breaks. With the single
candidate without provisioner and a simulation that succeeds, the call panics instead of
returning. With a second candidate that has a provisioner and sorts behind it, and the
candidate without provisioner reported deleting, the loop picks the candidate that has a
provisioner and still panics, since the log statement reads `candidates[0]`, not the
candidate picked. -/
theorem C18_expiration_compute_panics :
    Expiration.ComputeCommand .actionDelete filterKeepsAll simulateNoReplacement
        [candidateNoProvisioner]
      = .panicked "invalid memory address or nil pointer dereference"
    ∧ Expiration.filterAndSortCandidates filterKeepsAll
        [candidateFarFuture, candidateNoProvisioner]
      = ([candidateNoProvisioner, candidateFarFuture], none)
    ∧ Expiration.ComputeCommand .actionDelete filterKeepsAll simulateNoProvisionerDeleting
        [candidateFarFuture, candidateNoProvisioner]
      = .panicked "invalid memory address or nil pointer dereference" := by
  decide

/-- C19 (sorting neither drops nor invents candidates): when the filter succeeds,
`filterAndSortCandidates` returns with a nil error a permutation of the filter output; when
the filter fails with an error, it returns no candidates and an error that wraps the
filter error. -/
theorem C19_sort_is_permutation (filter : List Candidate → FilterResult)
    (nodes : List Candidate) :
    (∀ survivors, filter nodes = (survivors, none) →
      (Expiration.filterAndSortCandidates filter nodes).2 = none
      ∧ (Expiration.filterAndSortCandidates filter nodes).1.Perm survivors)
    ∧ (∀ l e, filter nodes = (l, some e) →
      (Expiration.filterAndSortCandidates filter nodes).1 = []
      ∧ (Expiration.filterAndSortCandidates filter nodes).2
          = some (.wrapped "filtering candidates, " e)
      ∧ errorsIs (.wrapped "filtering candidates, " e) e = true) := by
  constructor
  · intro survivors hf
    rw [Expiration_filterAndSortCandidates_ok filter nodes survivors hf]
    exact ⟨rfl, sortSlice_perm expirationLess survivors⟩
  · intro l e hf
    simp only [Expiration.filterAndSortCandidates, hf, true_and]
    exact errorsIs_wrapped _ e

/-- C19 on sample inputs: four candidates come back rearranged, and a failing filter yields
no candidates and the wrapped error. -/
theorem C19_sort_is_permutation_witness :
    (Expiration.filterAndSortCandidates filterKeepsAll
        [candidateNoProvisioner, candidateC, candidateA, candidateB]).1.Perm
      [candidateNoProvisioner, candidateC, candidateA, candidateB]
    ∧ Expiration.filterAndSortCandidates filterFails [candidateA]
      = ([], some (.wrapped "filtering candidates, " (.other "listing pods failed"))) :=
  ⟨((C19_sort_is_permutation filterKeepsAll
      [candidateNoProvisioner, candidateC, candidateA, candidateB]).1 _ rfl).2,
   Prod.ext
     ((C19_sort_is_permutation filterFails [candidateA]).2 [] _ rfl).1
     ((C19_sort_is_permutation filterFails [candidateA]).2 [] _ rfl).2.1⟩

/-! ## The claims on garbagecollect.go, continued -/

/-- C14 (cache hit): for a created record without node whose key has a cache entry expiring
at the instant `T` that the clock has not passed, `Reconcile` queries nothing, deletes
nothing, writes nothing to the cache, returns a nil error and asks to be requeued after
`time.Until` of `T`, the remaining time until `T`: that is `T` minus the clock value
whenever this difference fits a `time.Duration`. -/
theorem C14_cache_hit_requeue (d : Duration) (w : Collaborators) (cache : Cache)
    (m : v1alpha5.Machine) (T : Time)
    (hcreated : m.MachineCreated = true)
    (hnode : IsNodeNotFoundError (w.NodeForMachine m) = true)
    (hentry : cache (ObjectKey m) = some T) (hpos : 0 < T) (hlive : w.now ≤ T) :
    (GarbageCollect.Reconcile d w cache m).effects = []
    ∧ (GarbageCollect.Reconcile d w cache m).lastChecked = cache
    ∧ (GarbageCollect.Reconcile d w cache m).err = none
    ∧ (GarbageCollect.Reconcile d w cache m).result.RequeueAfter = Until w.now T
    ∧ (T - w.now ≤ maxDuration →
        (GarbageCollect.Reconcile d w cache m).result.RequeueAfter = T - w.now) := by
  have hsome : (w.NodeForMachine m).isNone = false := by
    cases h : w.NodeForMachine m with
    | none => rw [h] at hnode; simp [IsNodeNotFoundError] at hnode
    | some x => rfl
  have hg : cache.GetWithExpiration w.now (ObjectKey m) = some T := by
    simp [Cache.GetWithExpiration, hentry, hpos, not_lt.mpr hlive]
  have hmin : ¬ (T - w.now < minDuration) := by
    have h0 : (0 : Int) ≤ T - w.now := sub_nonneg.mpr hlive
    have hneg : minDuration < 0 := by decide
    exact not_lt.mpr (le_trans (le_of_lt hneg) h0)
  have hres : (GarbageCollect.Reconcile d w cache m).result.RequeueAfter = Until w.now T := by
    unfold GarbageCollect.Reconcile
    simp [hcreated, hnode, hsome, hg]
  refine ⟨?_, ?_, ?_, hres, ?_⟩
  · unfold GarbageCollect.Reconcile
    simp [hcreated, hnode, hsome, hg]
  · unfold GarbageCollect.Reconcile
    simp [hcreated, hnode, hsome, hg]
  · unfold GarbageCollect.Reconcile
    simp [hcreated, hnode, hsome, hg]
  · intro hfit
    rw [hres]
    simp [Until, Time.Sub, not_lt.mpr hfit, hmin]

/-- C14 on the sample record: an entry expiring ten minutes after 2023-01-01T00:00:00Z, seen
one minute in, gives a requeue after nine minutes and nothing else. -/
theorem C14_cache_hit_requeue_witness :
    (GarbageCollect.Reconcile tenMinutes (collaboratorsFound (sampleNow + 60 * Second))
        (cacheWithEntry "/machine-1" (sampleNow + tenMinutes)) sampleMachine).effects = []
    ∧ (GarbageCollect.Reconcile tenMinutes (collaboratorsFound (sampleNow + 60 * Second))
        (cacheWithEntry "/machine-1" (sampleNow + tenMinutes)) sampleMachine).err = none
    ∧ (GarbageCollect.Reconcile tenMinutes (collaboratorsFound (sampleNow + 60 * Second))
        (cacheWithEntry "/machine-1" (sampleNow + tenMinutes))
        sampleMachine).result.RequeueAfter = 540 * Second :=
  ⟨(C14_cache_hit_requeue tenMinutes (collaboratorsFound (sampleNow + 60 * Second))
      (cacheWithEntry "/machine-1" (sampleNow + tenMinutes)) sampleMachine
      (sampleNow + tenMinutes) rfl (by decide) (by decide) (by decide) (by decide)).1,
   (C14_cache_hit_requeue tenMinutes (collaboratorsFound (sampleNow + 60 * Second))
      (cacheWithEntry "/machine-1" (sampleNow + tenMinutes)) sampleMachine
      (sampleNow + tenMinutes) rfl (by decide) (by decide) (by decide) (by decide)).2.2.1,
   ((C14_cache_hit_requeue tenMinutes (collaboratorsFound (sampleNow + 60 * Second))
      (cacheWithEntry "/machine-1" (sampleNow + tenMinutes)) sampleMachine
      (sampleNow + tenMinutes) rfl (by decide) (by decide) (by decide)
      (by decide)).2.2.2.2 (by decide)).trans (by decide)⟩

/-- C15 (cache expiry re-check): for a created record without node whose key has no cache
entry, or only an entry with an expiration that the clock has passed, the first thing
`Reconcile` does is to query the provider for the record's provider id; the deletion or the
cache write comes after that query, and no requeue delay is derived from the stale entry. -/
theorem C15_cache_expiry_recheck (d : Duration) (w : Collaborators) (cache : Cache)
    (m : v1alpha5.Machine)
    (hcreated : m.MachineCreated = true)
    (hnode : IsNodeNotFoundError (w.NodeForMachine m) = true)
    (hstale : cache (ObjectKey m) = none
      ∨ ∃ e, cache (ObjectKey m) = some e ∧ 0 < e ∧ e < w.now) :
    (∃ rest, (GarbageCollect.Reconcile d w cache m).effects
        = .providerGet m.ProviderID :: rest
      ∧ rest.any Effect.isProviderGet = false)
    ∧ (GarbageCollect.Reconcile d w cache m).result.RequeueAfter = 0 := by
  have hsome : (w.NodeForMachine m).isNone = false := by
    cases h : w.NodeForMachine m with
    | none => rw [h] at hnode; simp [IsNodeNotFoundError] at hnode
    | some x => rfl
  have hg : cache.GetWithExpiration w.now (ObjectKey m) = none := by
    rw [Cache_GetWithExpiration_eq_none_iff]
    intro e he
    rcases hstale with h | ⟨e2, h, hpos, hlt⟩
    · rw [h] at he
      cases he
    · rw [h] at he
      cases he
      exact ⟨hpos, hlt⟩
  unfold GarbageCollect.Reconcile
  by_cases hp : IsMachineNotFoundError (w.cloudProviderGet m.ProviderID) = true
  · cases hd : w.kubeDelete m <;>
      simp [hcreated, hnode, hsome, hg, hp, hd, Effect.isProviderGet]
  · simp [hcreated, hnode, hsome, hg, hp, Effect.isProviderGet]

/-- C15 on the sample record: an entry that expired one nanosecond ago does not stop the
provider query, and an empty cache yields no requeue delay. -/
theorem C15_cache_expiry_recheck_witness :
    (∃ rest, (GarbageCollect.Reconcile tenMinutes (collaboratorsFound (sampleNow + 1))
        (cacheWithEntry "/machine-1" sampleNow) sampleMachine).effects
        = .providerGet "provider://i-1" :: rest
      ∧ rest.any Effect.isProviderGet = false)
    ∧ (GarbageCollect.Reconcile tenMinutes (collaboratorsFound sampleNow) emptyCache
        sampleMachine).result.RequeueAfter = 0 :=
  ⟨(C15_cache_expiry_recheck tenMinutes (collaboratorsFound (sampleNow + 1))
      (cacheWithEntry "/machine-1" sampleNow) sampleMachine rfl (by decide)
      (Or.inr ⟨sampleNow, by decide, by decide, by decide⟩)).1,
   (C15_cache_expiry_recheck tenMinutes (collaboratorsFound sampleNow) emptyCache
      sampleMachine rfl (by decide) (Or.inl rfl)).2⟩

end Karpenter
